import Mathlib

/-!
Verification of the Phoenix-RTOS graphics core libraries (libgraph Cirrus
driver, generic VGA device driver and libvga helpers) against their
natural-language specification.  The C sources are shallowly embedded:
pure computations (clock synthesis, timing synthesis) become Lean
functions on `Nat` with explicit 32-bit wrap-around and byte truncation
where the C relies on unsigned conversions; hardware access becomes
explicit state passing on a register-file record together with an event
trace listing every register/memory access in program order.
-/

set_option maxHeartbeats 1000000
set_option maxRecDepth 2000

/-! ## Machine-arithmetic helpers

C `unsigned int` arithmetic is modelled on `Nat` with explicit reduction
modulo 2^32; storing into an `unsigned char` truncates to the low byte. -/

/-- Reduce a value as a C 32-bit unsigned int. -/
def u32 (n : Nat) : Nat := n % 4294967296

/-- 32-bit unsigned subtraction `a - b` (wraps around). -/
def sub32 (a b : Nat) : Nat := (a + (4294967296 - b % 4294967296)) % 4294967296

/-- Truncation performed by storing into an `unsigned char`. -/
def byte (n : Nat) : Nat := n &&& 0xff

/-- `abs((int)a - (int)b)` for values representable in a C int. -/
def cdist (a b : Nat) : Nat := max a b - min a b

/-- Pointwise update of a register file. -/
def upd (f : Nat → Nat) (i v : Nat) : Nat → Nat := fun j => if j = i then v else f j

/-! ## Clock synthesis (cirrus.c)

`MIN_VCLK`/`MAX_VCLK`, the known-stable VCLK table `vclks`, the internal
VCO computation `cirrus_vco` and the search `cirrus_vclk` are taken
directly from src/libgraph/cirrus.c lines 32-34, 203-235, 251-294. -/

/-- Stable VCLK range lower bound (kHz), cirrus.c line 33. -/
def MIN_VCLK : Nat := 28636

/-- Stable VCLK range upper bound (kHz), cirrus.c line 34. -/
def MAX_VCLK : Nat := 111000

/-- `cirrus_vclk_t`: frequency (kHz), numerator, denominator. -/
structure CVclk where
  freq : Nat
  num : Nat
  den : Nat
deriving DecidableEq

/-- The known-stable VCLK table `vclks` (cirrus.c lines 203-235); the
terminating `{ 0 }` sentinel is represented by the end of the list. -/
def vclksTab : List CVclk :=
  [⟨12599, 0x2c, 0x33⟩, ⟨25226, 0x4a, 0x2b⟩, ⟨28324, 0x5b, 0x2f⟩,
   ⟨31499, 0x42, 0x1f⟩, ⟨36081, 0x7e, 0x33⟩, ⟨39991, 0x51, 0x3a⟩,
   ⟨41164, 0x45, 0x30⟩, ⟨45075, 0x55, 0x36⟩, ⟨49866, 0x65, 0x3a⟩,
   ⟨64981, 0x76, 0x34⟩, ⟨72162, 0x7e, 0x32⟩, ⟨74999, 0x6e, 0x2a⟩,
   ⟨80012, 0x5f, 0x22⟩, ⟨85226, 0x7d, 0x2a⟩, ⟨89998, 0x58, 0x1c⟩,
   ⟨95019, 0x49, 0x16⟩, ⟨100226, 0x46, 0x14⟩, ⟨108035, 0x53, 0x16⟩,
   ⟨109771, 0x5c, 0x18⟩, ⟨120050, 0x6d, 0x1a⟩, ⟨125998, 0x58, 0x14⟩,
   ⟨130055, 0x6d, 0x18⟩, ⟨134998, 0x42, 0x0e⟩, ⟨150339, 0x69, 0x14⟩,
   ⟨168236, 0x5e, 0x10⟩, ⟨188179, 0x5c, 0x0e⟩, ⟨210679, 0x67, 0x0e⟩,
   ⟨229088, 0x60, 0x0c⟩]

/-- `cirrus_vco`: internal VCO (kHz), cirrus.c lines 251-254. -/
def cirrus_vco (n d : Nat) : Nat := (n &&& 0x7f) * MIN_VCLK / (d &&& 0x3e)

/-- The "prefer tested clock" scan of cirrus_vclk (lines 263-268): first
table entry within 0.1% of the target. -/
def vclkTableScan (freq : Nat) : Option CVclk :=
  vclksTab.find? (fun v => decide (cdist v.freq freq < freq / 1000))

/-- The candidate (numerator, denominator) pairs of the exhaustive search
in iteration order: `for (n = 0x10; n < 0x7f; n++) for (d = 0x14; d < 0x3f; d++)`
(cirrus.c lines 276-277). -/
def vclkPairs : List (Nat × Nat) :=
  (List.range' 0x10 0x6f).flatMap fun n =>
    (List.range' 0x14 0x2b).map fun d => (n, d)

/-- Achieved frequency of a candidate: the VCO halved when the denominator
is odd (`f >>= (d & 0x1)`, cirrus.c line 282). -/
def achieved (p : Nat × Nat) : Nat := cirrus_vco p.1 p.2 >>> (p.2 &&& 1)

/-- A candidate's VCO lies in the stable band `[MIN_VCLK, mv]`
(negation of the `continue` condition at cirrus.c line 280). -/
def inBand (mv : Nat) (p : Nat × Nat) : Prop :=
  MIN_VCLK ≤ cirrus_vco p.1 p.2 ∧ cirrus_vco p.1 p.2 ≤ mv

instance (mv : Nat) (p : Nat × Nat) : Decidable (inBand mv p) := by
  unfold inBand; infer_instance

/-- The mutable locals of the search loop: the best candidate recorded in
the caller's `cirrus_vclk_t` (freq 0 = none yet) and `mindiff`. -/
structure SearchSt where
  bfreq : Nat
  bnum : Nat
  bden : Nat
  mindiff : Nat
deriving DecidableEq

/-- One iteration of the inner search loop (cirrus.c lines 278-289). -/
def vclkStep (freq mv : Nat) (st : SearchSt) (p : Nat × Nat) : SearchSt :=
  let f := cirrus_vco p.1 p.2
  if f < MIN_VCLK ∨ mv < f then st
  else
    let fa := f >>> (p.2 &&& 1)
    let diff := cdist fa freq
    if diff < st.mindiff then ⟨fa, p.1, p.2, diff⟩ else st

/-- `cirrus_vclk` (cirrus.c lines 258-294): table scan first, otherwise
exhaustive search with effective ceiling `max(maxvclk, MAX_VCLK)`;
`some` models the EOK return with the filled `cirrus_vclk_t`, `none`
models `-EINVAL`. -/
def cirrus_vclk (maxvclk freq : Nat) : Option CVclk :=
  match vclkTableScan freq with
  | some v => some v
  | none =>
    let mv := if maxvclk < MAX_VCLK then MAX_VCLK else maxvclk
    let r := vclkPairs.foldl (vclkStep freq mv) ⟨0, 0, 0, freq⟩
    if r.bfreq ≠ 0 then some ⟨r.bfreq, r.bnum, r.bden⟩ else none

/-! ### Search-loop invariant -/

/-- Invariant of the exhaustive search after folding over a candidate
prefix `L`: either nothing has been accepted (`bfreq = 0`) and every
in-band candidate sits at distance at least `freq`, or the state holds
the earliest candidate attaining the minimal distance seen so far. -/
def SearchInv (freq mv : Nat) (L : List (Nat × Nat)) (st : SearchSt) : Prop :=
  (st.bfreq = 0 → st.mindiff = freq ∧
    ∀ p ∈ L, inBand mv p → freq ≤ cdist (achieved p) freq) ∧
  (st.bfreq ≠ 0 →
    st.mindiff = cdist st.bfreq freq ∧ st.mindiff < freq ∧
    ∃ l1 l2, L = l1 ++ (st.bnum, st.bden) :: l2 ∧
      st.bfreq = achieved (st.bnum, st.bden) ∧ inBand mv (st.bnum, st.bden) ∧
      (∀ p ∈ l1, inBand mv p → st.mindiff < cdist (achieved p) freq) ∧
      (∀ p ∈ l2, inBand mv p → st.mindiff ≤ cdist (achieved p) freq))

lemma achieved_pos {mv : Nat} {p : Nat × Nat} (h : inBand mv p) : 0 < achieved p := by
  have h1 : MIN_VCLK ≤ cirrus_vco p.1 p.2 := h.1
  have hMIN : MIN_VCLK = 28636 := rfl
  have h2 : p.2 &&& 1 = p.2 % 2 := Nat.and_one_is_mod p.2
  unfold achieved
  rw [h2]
  rcases Nat.mod_two_eq_zero_or_one p.2 with h3 | h3 <;> rw [h3]
  · rw [Nat.shiftRight_zero]; omega
  · rw [Nat.shiftRight_one]; omega

lemma searchInv_foldl (freq mv : Nat) (L : List (Nat × Nat)) :
    SearchInv freq mv L (L.foldl (vclkStep freq mv) ⟨0, 0, 0, freq⟩) := by
  induction L using List.reverseRecOn with
  | nil =>
    refine ⟨fun _ => ⟨rfl, by simp⟩, fun h => absurd rfl h⟩
  | append_singleton L p ih =>
    rw [List.foldl_append, List.foldl_cons, List.foldl_nil]
    set st := L.foldl (vclkStep freq mv) ⟨0, 0, 0, freq⟩ with hst
    by_cases hband : cirrus_vco p.1 p.2 < MIN_VCLK ∨ mv < cirrus_vco p.1 p.2
    · -- candidate skipped: state unchanged
      have hnb : ¬ inBand mv p := by
        unfold inBand; omega
      rw [vclkStep, if_pos hband]
      refine ⟨fun h0 => ?_, fun h0 => ?_⟩
      · obtain ⟨hm, hall⟩ := ih.1 h0
        refine ⟨hm, fun q hq hqb => ?_⟩
        rcases List.mem_append.mp hq with hq | hq
        · exact hall q hq hqb
        · have : q = p := List.mem_singleton.mp hq
          exact absurd (this ▸ hqb) hnb
      · obtain ⟨hm, hlt, l1, l2, hL, hbf, hbb, h1, h2⟩ := ih.2 h0
        refine ⟨hm, hlt, l1, l2 ++ [p], by rw [hL]; simp, hbf, hbb, h1, fun q hq hqb => ?_⟩
        rcases List.mem_append.mp hq with hq | hq
        · exact h2 q hq hqb
        · have : q = p := List.mem_singleton.mp hq
          exact absurd (this ▸ hqb) hnb
    · -- candidate in band
      have hb : inBand mv p := by
        unfold inBand; omega
      have hach : cirrus_vco p.1 p.2 >>> (p.2 &&& 1) = achieved p := rfl
      rw [vclkStep, if_neg hband]
      dsimp only
      rw [hach]
      by_cases hdiff : cdist (achieved p) freq < st.mindiff
      · -- strict improvement: new best at the end of the list
        rw [if_pos hdiff]
        have hminle : st.mindiff ≤ freq := by
          by_cases h0 : st.bfreq = 0
          · exact (ih.1 h0).1.le
          · exact ((ih.2 h0).2.1).le
        have hpos : 0 < achieved p := achieved_pos hb
        constructor
        · intro h
          dsimp only at h
          omega
        · intro _
          dsimp only
          refine ⟨rfl, by omega, L, [], by simp, rfl, hb, fun q hq hqb => ?_, by simp⟩
          -- every earlier in-band candidate is at strictly larger distance
          by_cases h0 : st.bfreq = 0
          · have h4 := (ih.1 h0).2 q hq hqb
            have h5 := (ih.1 h0).1
            omega
          · obtain ⟨hm, _, l1, l2, hL, hbf, _, h1, h2⟩ := ih.2 h0
            rw [hL] at hq
            rcases List.mem_append.mp hq with hq | hq
            · have := h1 q hq hqb; omega
            · rcases List.mem_cons.mp hq with hq | hq
              · subst hq
                rw [← hbf]; omega
              · have := h2 q hq hqb; omega
      · -- no improvement: state unchanged
        rw [if_neg hdiff]
        refine ⟨fun h0 => ?_, fun h0 => ?_⟩
        · obtain ⟨hm, hall⟩ := ih.1 h0
          refine ⟨hm, fun q hq hqb => ?_⟩
          rcases List.mem_append.mp hq with hq | hq
          · exact hall q hq hqb
          · obtain rfl : q = p := List.mem_singleton.mp hq
            omega
        · obtain ⟨hm, hlt, l1, l2, hL, hbf, hbb, h1, h2⟩ := ih.2 h0
          refine ⟨hm, hlt, l1, l2 ++ [p], by rw [hL]; simp, hbf, hbb, h1, fun q hq hqb => ?_⟩
          rcases List.mem_append.mp hq with hq | hq
          · exact h2 q hq hqb
          · obtain rfl : q = p := List.mem_singleton.mp hq
            omega

lemma max_eq_effective (maxvclk : Nat) :
    max maxvclk MAX_VCLK = if maxvclk < MAX_VCLK then MAX_VCLK else maxvclk := by
  rcases Nat.lt_or_ge maxvclk MAX_VCLK with h | h
  · rw [if_pos h]; omega
  · rw [if_neg (by omega)]; omega

lemma cdist_eq_zero {a b : Nat} (h : cdist a b = 0) : a = b := by
  unfold cdist at h; omega

lemma mem_vclkPairs {p : Nat × Nat} :
    p ∈ vclkPairs ↔ 0x10 ≤ p.1 ∧ p.1 < 0x7f ∧ 0x14 ≤ p.2 ∧ p.2 < 0x3f := by
  unfold vclkPairs
  constructor
  · intro hp
    rw [List.mem_flatMap] at hp
    obtain ⟨n, hn, hp⟩ := hp
    rw [List.mem_map] at hp
    obtain ⟨d, hd, rfl⟩ := hp
    rw [List.mem_range'_1] at hn hd
    dsimp only
    omega
  · intro ⟨h1, h2, h3, h4⟩
    rw [List.mem_flatMap]
    refine ⟨p.1, ?_, ?_⟩
    · rw [List.mem_range'_1]; omega
    · rw [List.mem_map]
      exact ⟨p.2, by rw [List.mem_range'_1]; omega, rfl⟩

/-- Reduction of `cirrus_vclk` to its search fold once the table scan
has come up empty. -/
lemma cirrus_vclk_of_tableScan_none (maxvclk freq mv : Nat)
    (htab : vclkTableScan freq = none)
    (hmv : (if maxvclk < MAX_VCLK then MAX_VCLK else maxvclk) = mv) :
    cirrus_vclk maxvclk freq =
      (if (vclkPairs.foldl (vclkStep freq mv) ⟨0, 0, 0, freq⟩).bfreq ≠ 0
       then some ⟨(vclkPairs.foldl (vclkStep freq mv) ⟨0, 0, 0, freq⟩).bfreq,
                  (vclkPairs.foldl (vclkStep freq mv) ⟨0, 0, 0, freq⟩).bnum,
                  (vclkPairs.foldl (vclkStep freq mv) ⟨0, 0, 0, freq⟩).bden⟩
       else none) := by
  subst hmv
  unfold cirrus_vclk
  rw [htab]

/-- Bounded check used to pin down the unique exact candidate at target
58195 kHz: every in-band candidate other than (0x7e, 0x3e) misses the
target. -/
def uniq58195 : Bool :=
  (List.range' 0x10 0x6f).all fun n =>
    (List.range' 0x14 0x2b).all fun d =>
      (!(decide (inBand 111000 (n, d)) && decide (cdist (achieved (n, d)) 58195 = 0)))
        || (decide (n = 0x7e) && decide (d = 0x3e))

/-- The concrete outcome of `cirrus_vclk` at target 58195 kHz with
per-depth ceiling 0: no table entry matches within 0.1% and the
exhaustive search settles on numerator 0x7e, denominator 0x3e, an exact
hit.  Derived from the search invariant rather than by brute-force
kernel evaluation of the 4773-candidate loop. -/
lemma cirrus_vclk_58195 : cirrus_vclk 0 58195 = some ⟨58195, 0x7e, 0x3e⟩ := by
  have htab : vclkTableScan 58195 = none := by decide
  have hchk : uniq58195 = true := by decide
  have huniq : ∀ p ∈ vclkPairs, inBand 111000 p →
      cdist (achieved p) 58195 = 0 → p = ((0x7e : Nat), (0x3e : Nat)) := by
    intro p hp hb hc
    obtain ⟨h1, h2, h3, h4⟩ := mem_vclkPairs.mp hp
    unfold uniq58195 at hchk
    rw [List.all_eq_true] at hchk
    have hrow := hchk p.1 (List.mem_range'_1.mpr (by omega))
    rw [List.all_eq_true] at hrow
    have hcell := hrow p.2 (List.mem_range'_1.mpr (by omega))
    simp only [Bool.or_eq_true, Bool.and_eq_true, Bool.not_eq_true',
      Bool.and_eq_false_iff, decide_eq_true_eq, decide_eq_false_iff_not] at hcell
    rcases hcell with (hcell | hcell) | ⟨e1, e2⟩
    · exact absurd hb hcell
    · exact absurd hc hcell
    · exact Prod.ext e1 e2
  have hmem : ((0x7e : Nat), (0x3e : Nat)) ∈ vclkPairs := mem_vclkPairs.mpr (by decide)
  have hband : inBand 111000 ((0x7e : Nat), (0x3e : Nat)) := by
    constructor <;> decide
  have hach : cdist (achieved ((0x7e : Nat), (0x3e : Nat))) 58195 = 0 := by decide
  have hinv := searchInv_foldl 58195 111000 vclkPairs
  obtain ⟨r, hr⟩ : ∃ r, r = vclkPairs.foldl (vclkStep 58195 111000) ⟨0, 0, 0, 58195⟩ :=
    ⟨_, rfl⟩
  rw [← hr] at hinv
  have hb0 : r.bfreq ≠ 0 := by
    intro h0
    have h5 := (hinv.1 h0).2 (0x7e, 0x3e) hmem hband
    omega
  obtain ⟨hm, hlt, l1, l2, hL, hbf, hbb, h1, h2⟩ := hinv.2 hb0
  have hbest : r.bnum = 0x7e ∧ r.bden = 0x3e ∧ r.bfreq = 58195 := by
    have hmem' := hmem
    rw [hL] at hmem'
    rcases List.mem_append.mp hmem' with hin | hin
    · have := h1 _ hin hband
      omega
    · rcases List.mem_cons.mp hin with heq | hin
      · obtain ⟨e1, e2⟩ := Prod.ext_iff.mp heq.symm
        refine ⟨e1, e2, ?_⟩
        have hz : cdist (achieved (r.bnum, r.bden)) 58195 = 0 := by
          rw [← heq]; exact hach
        rw [← hbf] at hz
        exact cdist_eq_zero hz
      · have h5 := h2 _ hin hband
        have hm0 : r.mindiff = 0 := by omega
        have hbf0 : r.bfreq = 58195 := by
          rw [hm] at hm0
          exact cdist_eq_zero hm0
        have hbmem : (r.bnum, r.bden) ∈ vclkPairs := by
          rw [hL]
          exact List.mem_append.mpr (Or.inr (List.mem_cons_self _ _))
        have hzero : cdist (achieved (r.bnum, r.bden)) 58195 = 0 := by
          rw [← hbf, hbf0]
          unfold cdist; omega
        obtain ⟨e1, e2⟩ := Prod.ext_iff.mp (huniq _ hbmem hbb hzero)
        exact ⟨e1, e2, hbf0⟩
  rw [cirrus_vclk_of_tableScan_none 0 58195 111000 htab (by decide), ← hr, if_pos hb0,
    hbest.1, hbest.2.1, hbest.2.2]

/-- C1 (amended: numerator range is [0x10, 0x7f), not [0x10, 0x7e)).
For every target frequency that matches no known-stable table entry and
every per-depth ceiling, with effective ceiling max(ceiling, MAX_VCLK):
if the search succeeds, the returned ClockSpec is a candidate of the
iteration sequence (ascending numerator in [0x10, 0x7f), then ascending
denominator in [0x14, 0x3f), which is exactly `vclkPairs`), its internal
VCO lies in [MIN_VCLK, effective ceiling], its frequency is the achieved
frequency (VCO halved for odd denominator), it minimizes the absolute
distance to the target over all in-band candidates, and strictly beats
every in-band candidate occurring earlier in iteration order; if no
candidate lies in the band, the search fails with ClockOutOfRange. -/
theorem cirrus_vclk_search_c1 (freq maxvclk : Nat)
    (htab : vclkTableScan freq = none) :
    (∀ v, cirrus_vclk maxvclk freq = some v →
      v.freq = achieved (v.num, v.den) ∧
      inBand (max maxvclk MAX_VCLK) (v.num, v.den) ∧
      (∃ l1 l2, vclkPairs = l1 ++ (v.num, v.den) :: l2 ∧
        ∀ p ∈ l1, inBand (max maxvclk MAX_VCLK) p →
          cdist v.freq freq < cdist (achieved p) freq) ∧
      (∀ p ∈ vclkPairs, inBand (max maxvclk MAX_VCLK) p →
        cdist v.freq freq ≤ cdist (achieved p) freq)) ∧
    ((∀ p ∈ vclkPairs, ¬ inBand (max maxvclk MAX_VCLK) p) →
      cirrus_vclk maxvclk freq = none) := by
  obtain ⟨mv, hmveq⟩ : ∃ mv, (if maxvclk < MAX_VCLK then MAX_VCLK else maxvclk) = mv :=
    ⟨_, rfl⟩
  have hmax : max maxvclk MAX_VCLK = mv := by rw [max_eq_effective]; exact hmveq
  have hred := cirrus_vclk_of_tableScan_none maxvclk freq mv htab hmveq
  have hinv := searchInv_foldl freq mv vclkPairs
  obtain ⟨r, hr⟩ : ∃ r, r = vclkPairs.foldl (vclkStep freq mv) ⟨0, 0, 0, freq⟩ :=
    ⟨_, rfl⟩
  rw [← hr] at hinv hred
  rw [hmax]
  constructor
  · intro v hv
    rw [hred] at hv
    by_cases hb0 : r.bfreq ≠ 0
    · rw [if_pos hb0] at hv
      injection hv with hv
      subst hv
      obtain ⟨hm, hlt, l1, l2, hL, hbf, hbb, h1, h2⟩ := hinv.2 hb0
      dsimp only
      refine ⟨hbf, hbb, ⟨l1, l2, hL, fun p hp hpb => ?_⟩, fun p hp hpb => ?_⟩
      · have := h1 p hp hpb
        omega
      · rw [hL] at hp
        rcases List.mem_append.mp hp with hp | hp
        · have := h1 p hp hpb
          omega
        · rcases List.mem_cons.mp hp with hp | hp
          · subst hp
            rw [← hbf]
          · have := h2 p hp hpb
            omega
    · rw [if_neg hb0] at hv
      exact absurd hv (by simp)
  · intro hnone
    rw [hred]
    by_cases hb0 : r.bfreq ≠ 0
    · exfalso
      obtain ⟨hm, hlt, l1, l2, hL, hbf, hbb, h1, h2⟩ := hinv.2 hb0
      have hbmem : (r.bnum, r.bden) ∈ vclkPairs := by
        rw [hL]
        exact List.mem_append.mpr (Or.inr (List.mem_cons_self _ _))
      exact hnone _ hbmem hbb
    · rw [if_neg hb0]

/-- Witness for C1 at target 58195 kHz, ceiling 0: the theorem applied to
the concrete successful result ⟨58195, 0x7e, 0x3e⟩. -/
theorem cirrus_vclk_search_c1_witness :
    (58195 : Nat) = achieved (0x7e, 0x3e) ∧
    inBand (max 0 MAX_VCLK) (0x7e, 0x3e) ∧
    (∃ l1 l2, vclkPairs = l1 ++ ((0x7e : Nat), (0x3e : Nat)) :: l2 ∧
      ∀ p ∈ l1, inBand (max 0 MAX_VCLK) p →
        cdist 58195 58195 < cdist (achieved p) 58195) ∧
    (∀ p ∈ vclkPairs, inBand (max 0 MAX_VCLK) p →
      cdist 58195 58195 ≤ cdist (achieved p) 58195) :=
  (cirrus_vclk_search_c1 58195 0 (by decide)).1 ⟨58195, 0x7e, 0x3e⟩ cirrus_vclk_58195

/-- Counterexample to C1 as stated: at target 58195 kHz (no table match)
the search returns numerator 0x7e, which is outside the claimed
numerator range [0x10, 0x7e) — the code scans numerators up to and
including 0x7e (`n < 0x7f`). -/
theorem cirrus_vclk_search_c1_counterexample :
    vclkTableScan 58195 = none ∧
    cirrus_vclk 0 58195 = some ⟨58195, 0x7e, 0x3e⟩ ∧
    ¬ ((0x7e : Nat) < 0x7e) :=
  ⟨by decide, cirrus_vclk_58195, by decide⟩

/-- C2 (amended: the VCO range invariant only holds for results of the
exhaustive search; results copied from the known-stable table can
violate it).  Whenever find succeeds the returned frequency equals the
internal VCO right-shifted by one bit when the denominator is odd, and
additionally, when no table entry matched (so the result came from the
search), MIN_VCLK ≤ VCO ≤ max(ceiling, MAX_VCLK). -/
theorem cirrus_vclk_c2 (maxvclk freq : Nat) (v : CVclk)
    (hfind : cirrus_vclk maxvclk freq = some v) :
    v.freq = cirrus_vco v.num v.den >>> (v.den &&& 1) ∧
    (vclkTableScan freq = none →
      MIN_VCLK ≤ cirrus_vco v.num v.den ∧
      cirrus_vco v.num v.den ≤ max maxvclk MAX_VCLK) := by
  cases htab : vclkTableScan freq with
  | some w =>
    unfold cirrus_vclk at hfind
    rw [htab] at hfind
    injection hfind with hfind
    subst hfind
    have hw : w ∈ vclksTab := by
      unfold vclkTableScan at htab
      exact List.mem_of_find?_eq_some htab
    have htf : ∀ u ∈ vclksTab, u.freq = cirrus_vco u.num u.den >>> (u.den &&& 1) := by
      decide
    refine ⟨htf _ hw, fun hn => ?_⟩
    exact Option.noConfusion hn
  | none =>
    obtain ⟨mv, hmveq⟩ : ∃ mv, (if maxvclk < MAX_VCLK then MAX_VCLK else maxvclk) = mv :=
      ⟨_, rfl⟩
    have hmax : max maxvclk MAX_VCLK = mv := by rw [max_eq_effective]; exact hmveq
    have hred := cirrus_vclk_of_tableScan_none maxvclk freq mv htab hmveq
    have hinv := searchInv_foldl freq mv vclkPairs
    obtain ⟨r, hr⟩ : ∃ r, r = vclkPairs.foldl (vclkStep freq mv) ⟨0, 0, 0, freq⟩ :=
      ⟨_, rfl⟩
    rw [← hr] at hinv hred
    rw [hred] at hfind
    by_cases hb0 : r.bfreq ≠ 0
    · rw [if_pos hb0] at hfind
      injection hfind with hfind
      subst hfind
      obtain ⟨hm, hlt, l1, l2, hL, hbf, hbb, h1, h2⟩ := hinv.2 hb0
      refine ⟨hbf, fun _ => ?_⟩
      rw [hmax]
      exact hbb
    · rw [if_neg hb0] at hfind
      exact absurd hfind (by simp)

/-- Witness for C2 at target 58195 kHz, ceiling 0 (search path). -/
theorem cirrus_vclk_c2_witness :
    ((58195 : Nat) = cirrus_vco 0x7e 0x3e >>> (0x3e &&& 1)) ∧
    (MIN_VCLK ≤ cirrus_vco 0x7e 0x3e ∧ cirrus_vco 0x7e 0x3e ≤ max 0 MAX_VCLK) := by
  have h := cirrus_vclk_c2 0 58195 ⟨58195, 0x7e, 0x3e⟩ cirrus_vclk_58195
  exact ⟨h.1, h.2 (by decide)⟩

/-- Counterexample to C2 as stated: requesting 12599 kHz hits the first
known-stable table entry {12599, 0x2c, 0x33}, whose internal VCO
(0x2c & 0x7f) * MIN_VCLK / (0x33 & 0x3e) = 25199 kHz is below MIN_VCLK,
so the claimed invariant MIN_VCLK ≤ VCO fails on the table path. -/
theorem cirrus_vclk_c2_counterexample :
    cirrus_vclk 0 12599 = some ⟨12599, 0x2c, 0x33⟩ ∧
    cirrus_vco 0x2c 0x33 < MIN_VCLK := by
  constructor
  · unfold cirrus_vclk
    have h : vclkTableScan 12599 = some ⟨12599, 0x2c, 0x33⟩ := by decide
    rw [h]
  · decide

/-! ## Timing synthesis (libvga vga_mode)

`vga_mode_t`, the VGA mode flags and the pure register-image synthesis
`vga_mode` are taken from src/libvga/libvga.h and the libvga
implementation (vga_mode, concatenated test sources lines 975-1115). -/

/-- VGA mode flags (libvga.h lines 26-32). -/
def VGA_HSYNCP : Nat := 1

def VGA_VSYNCP : Nat := 2

def VGA_CLKDIV : Nat := 4

def VGA_DBLSCAN : Nat := 8

def VGA_INTERLACE : Nat := 16

/-- `vga_mode_t`: the timing descriptor (libvga.h lines 35-51). -/
structure VgaMode where
  clk : Nat
  hres : Nat
  hsyncs : Nat
  hsynce : Nat
  htotal : Nat
  hskew : Nat
  vres : Nat
  vsyncs : Nat
  vsynce : Nat
  vtotal : Nat
  vscan : Nat
  flags : Nat
deriving DecidableEq, Inhabited

/-- The four vertical working quantities of vga_mode. -/
structure VQuad where
  vres : Nat
  vsyncs : Nat
  vsynce : Nat
  vtotal : Nat
deriving DecidableEq

/-- Double-scan step: doubles all four vertical quantities (lines 999-1004). -/
def vtDbl (flags : Nat) (q : VQuad) : VQuad :=
  if flags &&& VGA_DBLSCAN ≠ 0 then
    ⟨u32 (q.vres <<< 1), u32 (q.vsyncs <<< 1), u32 (q.vsynce <<< 1), u32 (q.vtotal <<< 1)⟩
  else q

/-- Interlace step: halves all four vertical quantities (lines 1006-1011). -/
def vtInt (flags : Nat) (q : VQuad) : VQuad :=
  if flags &&& VGA_INTERLACE ≠ 0 then
    ⟨q.vres >>> 1, q.vsyncs >>> 1, q.vsynce >>> 1, q.vtotal >>> 1⟩
  else q

/-- Scan-multiplier step: multiplies all four vertical quantities
by vscan when vscan > 1 (lines 1013-1018). -/
def vtScan (vscan : Nat) (q : VQuad) : VQuad :=
  if 1 < vscan then
    ⟨u32 (q.vres * vscan), u32 (q.vsyncs * vscan), u32 (q.vsynce * vscan), u32 (q.vtotal * vscan)⟩
  else q

/-- The vertical transform of vga_mode: double-scan, then interlace,
then scan-multiplier, in source order. -/
def vgaVT (m : VgaMode) : VQuad :=
  vtScan m.vscan (vtInt m.flags (vtDbl m.flags ⟨m.vres, m.vsyncs, m.vsynce, m.vtotal⟩))

/-- Horizontal blanking interval of vga_mode (lines 1020-1023):
start = min(sync start, resolution), end = max(sync end, total),
then the start is raised when the span exceeds the representable
width 0x1f8. -/
def vga_hblank (m : VgaMode) : Nat × Nat :=
  let hblanks := min m.hsyncs m.hres
  let hblanke := max m.hsynce m.htotal
  let hblanks := if u32 (hblanks + 0x1f8) < hblanke then sub32 hblanke 0x1f8 else hblanks
  (hblanks, hblanke)

/-- Vertical blanking interval of vga_mode (lines 1025-1028), computed
from the transformed vertical quantities, span limit 0x7f. -/
def vga_vblank (q : VQuad) : Nat × Nat :=
  let vblanks := min q.vsyncs q.vres
  let vblanke := max q.vsynce q.vtotal
  let vblanks := if u32 (vblanks + 0x7f) < vblanke then sub32 vblanke 0x7f else vblanks
  (vblanks, vblanke)

/-- `vga_state_t` (libvga.h lines 54-64): register banks as index maps
plus the optional save buffers (palette contents modelled, text/font
contents abstracted to presence flags). -/
structure VgaState where
  misc : Nat
  crtc : Nat → Nat
  seq : Nat → Nat
  gfx : Nat → Nat
  attr : Nat → Nat
  cmap : Option (Nat → Nat)
  text : Bool
  font1 : Bool
  font2 : Bool

/-- `vga_mode` (lines 975-1115): pure synthesis of the generic VGA
register image from a timing descriptor.  Each register store truncates
to a byte as the C `unsigned char` arrays do; 32-bit wrap-around of the
intermediate unsigned arithmetic is explicit.  The save-buffer pointers
of the caller's state are not touched by the C function; every caller in
this repository nulls them immediately afterwards, which is the value
used here. -/
def vga_mode (clkidx : Nat) (m : VgaMode) : VgaState :=
  let misc0 := 0x23 ||| ((clkidx &&& 0x03) <<< 2)
  let misc1 := if m.flags &&& VGA_HSYNCP = 0 then misc0 ||| 0x40 else misc0
  let misc2 := if m.flags &&& VGA_VSYNCP = 0 then misc1 ||| 0x80 else misc1
  let seqm := upd (upd (upd (upd (upd (fun _ => 0) 0 0x00)
    1 (if m.flags &&& VGA_CLKDIV ≠ 0 then 0x09 else 0x01)) 2 0x0f) 3 0x00) 4 0x0e
  let q := vgaVT m
  let hb := vga_hblank m
  let hblanks := hb.1
  let hblanke := hb.2
  let vb := vga_vblank q
  let vblanks := vb.1
  let vblanke := vb.2
  let c0 := byte (sub32 (m.htotal >>> 3) 5)
  let c1 := byte (sub32 (m.hres >>> 3) 1)
  let c2 := byte (sub32 (hblanks >>> 3) 1)
  let c3a := (sub32 (hblanke >>> 3) 1 &&& 0x1f) ||| 0x80
  let skew := u32 ((m.hskew <<< 2) + 0x10) &&& 0xffffffe0
  let c3 := if skew < 0x80 then c3a ||| skew else c3a
  let c4 := byte (sub32 (m.hsyncs >>> 3) 1)
  let c5 := byte (((sub32 (hblanke >>> 3) 1 &&& 0x20) <<< 2) |||
    (sub32 (m.hsynce >>> 3) 1 &&& 0x1f))
  let c6 := byte (sub32 q.vtotal 2)
  let c7a := ((sub32 q.vtotal 2 &&& 0x100) >>> 8) ||| ((sub32 q.vres 1 &&& 0x100) >>> 7) |||
    ((sub32 q.vsyncs 1 &&& 0x100) >>> 6) ||| ((sub32 vblanks 1 &&& 0x100) >>> 5)
  let c7 := c7a ||| ((sub32 q.vtotal 2 &&& 0x200) >>> 4) |||
    ((sub32 q.vres 1 &&& 0x200) >>> 3) ||| ((sub32 q.vsyncs 1 &&& 0x200) >>> 2) ||| 0x10
  let c9a := ((sub32 vblanks 1 &&& 0x200) >>> 4) ||| 0x40
  let c9b := if m.flags &&& VGA_DBLSCAN ≠ 0 then c9a ||| 0x80 else c9a
  let c9 := if 32 ≤ m.vscan then c9b ||| 0x1f
    else if 1 < m.vscan then byte (c9b ||| (m.vscan - 1)) else c9b
  let c16 := byte (sub32 q.vsyncs 1)
  let c17 := (sub32 q.vsynce 1 &&& 0x0f) ||| 0x20
  let c18 := byte (sub32 q.vres 1)
  let c19 := byte ((u32 (m.hres + 0x0f) &&& 0xfffffff0) >>> 3)
  let c21 := byte (sub32 vblanks 1)
  let c22 := byte (sub32 vblanke 1)
  let crtc0 :=
    upd (upd (upd (upd (upd (upd (upd (upd (upd (upd (upd (upd (upd
      (upd (upd (upd (upd (upd (upd (upd (upd (upd (upd (upd (upd (fun _ => 0)
      0 c0) 1 c1) 2 c2) 3 c3) 4 c4) 5 c5) 6 c6) 7 c7) 8 0x00) 9 c9)
      10 0x00) 11 0x00) 12 0x00) 13 0x00) 14 0x00) 15 0x00) 16 c16) 17 c17)
      18 c18) 19 c19) 20 0x00) 21 c21) 22 c22) 23 0xc3) 24 0xff
  -- horizontal KGA blanking fix (lines 1066-1072)
  let i0 := (c3 &&& 0x1f) ||| ((c5 &&& 0x80) >>> 2)
  let i1 := if (sub32 (hblanks >>> 3) 1 &&& 0x3f) < i0 ∧ hblanke = m.htotal then 0
    else sub32 i0 1
  let c3f := if hblanke >>> 3 = m.htotal >>> 3 then (c3 &&& 0xe0) ||| (i1 &&& 0x1f) else c3
  let c5f := if hblanke >>> 3 = m.htotal >>> 3 then (c5 &&& 0x7f) ||| (u32 (i1 <<< 2) &&& 0x80)
    else c5
  -- vertical KGA blanking fix (lines 1075-1080)
  let jfin := if (c9 &&& 0x9f) = 0 ∧ c21 < c22 then
      (if (c21 &&& 0x7f) < (c22 &&& 0x7f) then 0 else sub32 c22 1)
    else c22
  let c22f := if vblanke = m.vtotal then byte jfin else c22
  let crtc1 := upd (upd (upd crtc0 3 c3f) 5 c5f) 22 c22f
  let gfxm := upd (upd (upd (upd (upd (upd (upd (upd (upd (fun _ => 0)
    0 0x00) 1 0x00) 2 0x00) 3 0x00) 4 0x00) 5 0x40) 6 0x05) 7 0x0f) 8 0xff
  let attrm := upd (upd (upd (upd (upd (upd (upd (upd (upd (upd (upd (upd (upd
    (upd (upd (upd (upd (upd (upd (upd (upd (fun _ => 0)
    0 0x00) 1 0x01) 2 0x02) 3 0x03) 4 0x04) 5 0x05) 6 0x06) 7 0x07) 8 0x08)
    9 0x09) 10 0x0a) 11 0x0b) 12 0x0c) 13 0x0d) 14 0x0e) 15 0x0f) 16 0x41)
    17 0xff) 18 0x0f) 19 0x00) 20 0x00
  { misc := misc2, crtc := crtc1, seq := seqm, gfx := gfxm, attr := attrm,
    cmap := none, text := false, font1 := false, font2 := false }

/-- C4 (amended): the horizontal blanking interval of timing synthesis
always satisfies blank_end ≥ sync_end; blank_start ≤ sync_start holds
whenever the widening step does not fire, and when it fires
(min(sync_start, resolution) + 0x1f8 < blank_end in 32-bit arithmetic)
the start is raised to blank_end − 0x1f8, which can exceed sync_start. -/
theorem vga_hblank_c4 (m : VgaMode) :
    m.hsynce ≤ (vga_hblank m).2 ∧
    (¬ u32 (min m.hsyncs m.hres + 0x1f8) < max m.hsynce m.htotal →
      (vga_hblank m).1 ≤ m.hsyncs) ∧
    (u32 (min m.hsyncs m.hres + 0x1f8) < max m.hsynce m.htotal →
      (vga_hblank m).1 = sub32 (max m.hsynce m.htotal) 0x1f8) := by
  have h2 : (vga_hblank m).2 = max m.hsynce m.htotal := rfl
  have h1 : (vga_hblank m).1 =
      if u32 (min m.hsyncs m.hres + 0x1f8) < max m.hsynce m.htotal
      then sub32 (max m.hsynce m.htotal) 0x1f8 else min m.hsyncs m.hres := rfl
  refine ⟨?_, fun h => ?_, fun h => ?_⟩
  · rw [h2]; exact Nat.le_max_left _ _
  · rw [h1, if_neg h]; exact Nat.min_le_left _ _
  · rw [h1, if_pos h]

/-- The concrete descriptor refuting C4 as stated: sync starts at 656
inside a 1200-pixel total, so the widening step raises blank_start to
1200 − 0x1f8 = 696 > 656. -/
def c4mode : VgaMode := ⟨25175, 640, 656, 656, 1200, 0, 480, 490, 492, 525, 0, 0⟩

/-- Counterexample to C4 as stated: after the widening step the
horizontal blank_start (696) exceeds sync_start (656). -/
theorem vga_hblank_c4_counterexample :
    (vga_hblank c4mode).1 = 696 ∧ c4mode.hsyncs = 656 ∧
    ¬ (vga_hblank c4mode).1 ≤ c4mode.hsyncs := by decide

/-- Witness for C4 (amended) at the concrete descriptor `c4mode`, on
which the widening step fires. -/
theorem vga_hblank_c4_witness :
    c4mode.hsynce ≤ (vga_hblank c4mode).2 ∧
    (vga_hblank c4mode).1 = sub32 (max c4mode.hsynce c4mode.htotal) 0x1f8 :=
  ⟨(vga_hblank_c4 c4mode).1, (vga_hblank_c4 c4mode).2.2 (by decide)⟩

/-- C5: for every timing descriptor, vga_mode transforms the four
vertical quantities in the strict order double-scan doubling, then
interlace halving, then scan multiplication (the composition
`vtScan ∘ vtInt ∘ vtDbl`, named `vgaVT`), and the packed vertical CRTC
registers (total, sync start, sync end, resolution, blank start and the
overflow bits) are derived from the quadruple produced by this order. -/
theorem vga_mode_c5 (clkidx : Nat) (m : VgaMode) :
    vgaVT m = vtScan m.vscan (vtInt m.flags (vtDbl m.flags
      ⟨m.vres, m.vsyncs, m.vsynce, m.vtotal⟩)) ∧
    (vga_mode clkidx m).crtc 6 = byte (sub32 (vgaVT m).vtotal 2) ∧
    (vga_mode clkidx m).crtc 16 = byte (sub32 (vgaVT m).vsyncs 1) ∧
    (vga_mode clkidx m).crtc 17 = ((sub32 (vgaVT m).vsynce 1 &&& 0x0f) ||| 0x20) ∧
    (vga_mode clkidx m).crtc 18 = byte (sub32 (vgaVT m).vres 1) ∧
    (vga_mode clkidx m).crtc 21 = byte (sub32 (vga_vblank (vgaVT m)).1 1) ∧
    (vga_mode clkidx m).crtc 7 =
      ((((sub32 (vgaVT m).vtotal 2 &&& 0x100) >>> 8) |||
        ((sub32 (vgaVT m).vres 1 &&& 0x100) >>> 7) |||
        ((sub32 (vgaVT m).vsyncs 1 &&& 0x100) >>> 6) |||
        ((sub32 (vga_vblank (vgaVT m)).1 1 &&& 0x100) >>> 5)) |||
       ((sub32 (vgaVT m).vtotal 2 &&& 0x200) >>> 4) |||
       ((sub32 (vgaVT m).vres 1 &&& 0x200) >>> 3) |||
       ((sub32 (vgaVT m).vsyncs 1 &&& 0x200) >>> 2) ||| 0x10) :=
  ⟨rfl, rfl, rfl, rfl, rfl, rfl, rfl⟩

/-! ## Hardware access model

Register access is modelled as explicit state passing on a register-file
record `Vga` together with an event trace: every register or memory
access of the C code appends one event in program order.  DAC data reads
return values from an external oracle indexed by a running read counter
(the modelled claims never depend on palette RAM contents); text/font
plane copies are single bulk events, as no claim depends on their
bytes. -/

/-- One hardware access event. -/
inductive Ev where
  | rmisc (v : Nat)
  | wmisc (v : Nat)
  | rcrtc (i v : Nat)
  | wcrtc (i v : Nat)
  | rseq (i v : Nat)
  | wseq (i v : Nat)
  | rgfx (i v : Nat)
  | wgfx (i v : Nat)
  | rattr (i v : Nat)
  | wattr (i v : Nat)
  | rdac (i v : Nat)
  | wdac (i v : Nat)
  | rstatus
  | encmap
  | discmap
  | memw (off v : Nat)
  | memc (plane dir : Nat)
  | memz (len : Nat)
deriving DecidableEq

/-- The adapter's register file (the state behind the access facade). -/
structure Vga where
  misc : Nat
  crtc : Nat → Nat
  seq : Nat → Nat
  gfx : Nat → Nat
  attr : Nat → Nat
  dacIn : Nat → Nat
  dacReads : Nat

/-- Result record of a composed VGA operation. -/
structure VgaOut where
  dev : Vga
  st : VgaState
  tr : List Ev

/-- `vga_mlock`: disable display and sequencer, enable cmap access
(libvga, lines 732-738). -/
def vga_mlock (d : Vga) : Vga × List Ev :=
  let v := d.seq 1
  ({ d with seq := upd (upd d.seq 1 (byte (v ||| 0x20))) 0 0x01 },
   [.rseq 1 v, .wseq 1 (byte (v ||| 0x20)), .wseq 0 0x01, .encmap])

/-- `vga_munlock`: enable sequencer and display, disable cmap access
(lines 741-747). -/
def vga_munlock (d : Vga) : Vga × List Ev :=
  let d1 := { d with seq := upd d.seq 0 0x03 }
  let v := d1.seq 1
  ({ d1 with seq := upd d1.seq 1 (byte (v &&& 0xdf)) },
   [.wseq 0 0x03, .rseq 1 v, .wseq 1 (byte (v &&& 0xdf)), .discmap])

/-- `vga_blank` (lines 750-757). -/
def vga_blank (d : Vga) : Vga × List Ev :=
  let v := d.seq 1
  ({ d with seq := upd (upd (upd d.seq 0 0x01) 1 (byte (v ||| 0x20))) 0 0x03 },
   [.rseq 1 v, .wseq 0 0x01, .wseq 1 (byte (v ||| 0x20)), .wseq 0 0x03])

/-- `vga_unblank` (lines 760-767). -/
def vga_unblank (d : Vga) : Vga × List Ev :=
  let v := d.seq 1
  ({ d with seq := upd (upd (upd d.seq 0 0x01) 1 (byte (v &&& 0xdf))) 0 0x03 },
   [.rseq 1 v, .wseq 0 0x01, .wseq 1 (byte (v &&& 0xdf)), .wseq 0 0x03])

/-- `vga_savemode` (lines 770-789): read misc, CRTC 0-24, sequencer 1-4,
graphics 0-8 and (with cmap access enabled) attribute 0-20 into the
state image. -/
def vga_savemode (d : Vga) (st : VgaState) : VgaOut :=
  ⟨d,
   { st with
     misc := d.misc,
     crtc := fun i => if i < 25 then d.crtc i else st.crtc i,
     seq := fun i => if 1 ≤ i ∧ i < 5 then d.seq i else st.seq i,
     gfx := fun i => if i < 9 then d.gfx i else st.gfx i,
     attr := fun i => if i < 21 then d.attr i else st.attr i },
   [Ev.rmisc d.misc] ++ (List.range 25).map (fun i => Ev.rcrtc i (d.crtc i)) ++
     (List.range' 1 4).map (fun i => Ev.rseq i (d.seq i)) ++
     (List.range 9).map (fun i => Ev.rgfx i (d.gfx i)) ++
     [Ev.encmap] ++ (List.range 21).map (fun i => Ev.rattr i (d.attr i)) ++ [Ev.discmap]⟩

/-- `vga_restoremode` (lines 792-813): write misc, then CRTC 0x11 with
the write-protect bit cleared, then CRTC 0-24, sequencer 1-4,
graphics 0-8 and attribute 0-20. -/
def vga_restoremode (d : Vga) (st : VgaState) : VgaOut :=
  ⟨{ d with
     misc := byte st.misc,
     crtc := fun i => if i < 25 then byte (st.crtc i) else d.crtc i,
     seq := fun i => if 1 ≤ i ∧ i < 5 then byte (st.seq i) else d.seq i,
     gfx := fun i => if i < 9 then byte (st.gfx i) else d.gfx i,
     attr := fun i => if i < 21 then byte (st.attr i) else d.attr i },
   st,
   [Ev.wmisc (byte st.misc), Ev.wcrtc 0x11 (byte (st.crtc 0x11 &&& 0x7f))] ++
     (List.range 25).map (fun i => Ev.wcrtc i (byte (st.crtc i))) ++
     (List.range' 1 4).map (fun i => Ev.wseq i (byte (st.seq i))) ++
     (List.range 9).map (fun i => Ev.wgfx i (byte (st.gfx i))) ++
     [Ev.encmap] ++ (List.range 21).map (fun i => Ev.wattr i (byte (st.attr i))) ++ [Ev.discmap]⟩

/-- `vga_savecmap` (lines 816-836): skipped without a cmap buffer,
otherwise 768 DAC data reads, each followed by the two status-read
settle delays. -/
def vga_savecmap (d : Vga) (st : VgaState) : VgaOut :=
  match st.cmap with
  | none => ⟨d, st, []⟩
  | some _ =>
    ⟨{ d with dacReads := d.dacReads + 768 },
     { st with cmap := some (fun k => d.dacIn (d.dacReads + k)) },
     [Ev.wdac 0 0xff, Ev.wdac 1 0x00] ++
       (List.range 768).flatMap (fun k =>
         [Ev.rdac 3 (d.dacIn (d.dacReads + k)), Ev.rstatus, Ev.rstatus]) ++
       [Ev.discmap]⟩

/-- `vga_restorecmap` (lines 839-859): skipped without a cmap buffer,
otherwise 768 DAC data writes with the settle delays. -/
def vga_restorecmap (d : Vga) (st : VgaState) : VgaOut :=
  match st.cmap with
  | none => ⟨d, st, []⟩
  | some f =>
    ⟨d, st,
     [Ev.wdac 0 0xff, Ev.wdac 2 0x00] ++
       (List.range 768).flatMap (fun k =>
         [Ev.wdac 3 (byte (f k)), Ev.rstatus, Ev.rstatus]) ++
       [Ev.discmap]⟩

/-- `vga_copytext` (lines 863-940): save addressing registers, force
color mode, blank, select and copy each present plane, restore
registers, unblank.  Plane copies are single bulk events. -/
def vga_copytext (d : Vga) (st : VgaState) (dir : Nat) : Vga × List Ev :=
  let misc := d.misc
  let gr01 := d.gfx 1
  let gr03 := d.gfx 3
  let gr04 := d.gfx 4
  let gr05 := d.gfx 5
  let gr06 := d.gfx 6
  let gr08 := d.gfx 8
  let sr02 := d.seq 2
  let sr04 := d.seq 4
  let t0 := [Ev.rmisc misc, Ev.rgfx 1 gr01, Ev.rgfx 3 gr03, Ev.rgfx 4 gr04,
             Ev.rgfx 5 gr05, Ev.rgfx 6 gr06, Ev.rgfx 8 gr08, Ev.rseq 2 sr02, Ev.rseq 4 sr04]
  let d1 := { d with misc := byte (misc ||| 0x01) }
  let b := vga_blank d1
  let d3 := { b.1 with
    seq := upd b.1.seq 4 0x06,
    gfx := upd (upd (upd (upd (upd b.1.gfx 1 0x00) 3 0x00) 5 0x00) 6 0x05) 8 0xff }
  let t3 := [Ev.wseq 4 0x06, Ev.wgfx 1 0x00, Ev.wgfx 3 0x00, Ev.wgfx 5 0x00,
             Ev.wgfx 6 0x05, Ev.wgfx 8 0xff]
  let d5 := if st.font1 then
      { d3 with
        seq := upd d3.seq 2 0x04,
        gfx := upd d3.gfx 4 0x02 }
    else d3
  let t4 := if st.font1 then [Ev.wseq 2 0x04, Ev.wgfx 4 0x02, Ev.memc 2 dir] else []
  let d6 := if st.font2 then
      { d5 with
        seq := upd d5.seq 2 0x08,
        gfx := upd d5.gfx 4 0x03 }
    else d5
  let t5 := if st.font2 then [Ev.wseq 2 0x08, Ev.wgfx 4 0x03, Ev.memc 3 dir] else []
  let d7 := if st.text then
      { d6 with
        seq := upd (upd d6.seq 2 0x01) 2 0x02,
        gfx := upd (upd d6.gfx 4 0x00) 4 0x01 }
    else d6
  let t6 := if st.text then [Ev.wseq 2 0x01, Ev.wgfx 4 0x00, Ev.memc 0 dir,
                             Ev.wseq 2 0x02, Ev.wgfx 4 0x01, Ev.memc 1 dir] else []
  let d8 := { d7 with
    seq := upd (upd d7.seq 4 (byte sr04)) 2 (byte sr02),
    gfx := upd (upd (upd (upd (upd (upd d7.gfx 8 (byte gr08)) 6 (byte gr06))
      5 (byte gr05)) 4 (byte gr04)) 3 (byte gr03)) 1 (byte gr01) }
  let t7 := [Ev.wseq 4 (byte sr04), Ev.wseq 2 (byte sr02), Ev.wgfx 8 (byte gr08),
             Ev.wgfx 6 (byte gr06), Ev.wgfx 5 (byte gr05), Ev.wgfx 4 (byte gr04),
             Ev.wgfx 3 (byte gr03), Ev.wgfx 1 (byte gr01)]
  let d9 := { d8 with misc := byte misc }
  let ub := vga_unblank d9
  (ub.1, t0 ++ [Ev.wmisc (byte (misc ||| 0x01))] ++ b.2 ++ t3 ++ t4 ++ t5 ++ t6 ++ t7 ++
    [Ev.wmisc (byte misc)] ++ ub.2)

/-- `vga_savetext` (lines 943-950): skipped when the adapter is in a
graphics mode (attribute 0x10 bit 0 set). -/
def vga_savetext (d : Vga) (st : VgaState) : VgaOut :=
  let v := d.attr 0x10
  if v &&& 0x01 ≠ 0 then ⟨d, st, [Ev.rattr 0x10 v]⟩
  else
    let c := vga_copytext d st 0
    ⟨c.1, st, [Ev.rattr 0x10 v] ++ c.2⟩

/-- `vga_restoretext` (lines 953-956). -/
def vga_restoretext (d : Vga) (st : VgaState) : VgaOut :=
  let c := vga_copytext d st 1
  ⟨c.1, st, c.2⟩

/-- `vga_save` (lines 959-964): text/font memory, then palette, then
register banks. -/
def vga_save (d : Vga) (st : VgaState) : VgaOut :=
  let a := vga_savetext d st
  let b := vga_savecmap a.dev a.st
  let c := vga_savemode b.dev b.st
  ⟨c.dev, c.st, a.tr ++ b.tr ++ c.tr⟩

/-- `vga_restore` (lines 967-972): register banks, then palette, then
text/font memory. -/
def vga_restore (d : Vga) (st : VgaState) : VgaOut :=
  let a := vga_restoremode d st
  let b := vga_restorecmap a.dev a.st
  let c := vga_restoretext b.dev b.st
  ⟨c.dev, st, a.tr ++ b.tr ++ c.tr⟩

/-! ## Cirrus driver data (cirrus.c)

The graphics-mode and refresh tags come from libgraph.h, which is not
part of the sources here; they are modelled from the spec as distinct
symbolic tags.  The sentinel table entries `{ 0 }` carry the
default-mode tag, the zero tag of the enumeration. -/

/-- Modelled from the spec: the graphics-mode request tags of
libgraph.h (libgraph.h itself is absent from the sources).  `defmode`
is the zero/default tag, also used by the `{ 0 }` table sentinels;
the power-management tags and the resolution/depth tags are the ones
the cirrus mode table uses. -/
inductive GraphMode where
  | defmode
  | on
  | off
  | standby
  | suspend
  | m640x400x8
  | m640x480x8
  | m800x600x8
  | m1024x768x8
  | m1152x864x8
  | m1280x1024x8
  | m640x480x16
  | m800x600x16
  | m1024x768x16
  | m640x480x24
  | m800x600x24
  | m1024x768x24
  | m640x480x32
  | m800x600x32
  | m1024x768x32
deriving DecidableEq

/-- Modelled from the spec: the refresh-rate tags of libgraph.h;
`deffreq` is the default-refresh tag. -/
inductive GraphFreq where
  | deffreq
  | f43i
  | f56
  | f60
  | f70
  | f72
  | f75
  | f85
deriving DecidableEq

/-- The timing configuration table `cfgs` (cirrus.c lines 98-119); the
`{ 0 }` sentinel is never referenced by the mode table and is omitted. -/
def cfgs : List VgaMode :=
  [⟨25175, 640, 656, 752, 800, 0, 400, 412, 414, 449, 0, VGA_VSYNCP⟩,
   ⟨25175, 640, 656, 752, 800, 0, 480, 490, 492, 525, 0, 0⟩,
   ⟨31500, 640, 664, 704, 832, 0, 480, 489, 491, 520, 0, 0⟩,
   ⟨31500, 640, 656, 720, 840, 0, 480, 481, 484, 500, 0, 0⟩,
   ⟨36000, 640, 696, 752, 832, 0, 480, 481, 484, 509, 0, 0⟩,
   ⟨40000, 800, 840, 968, 1056, 0, 600, 601, 605, 628, 0, VGA_HSYNCP ||| VGA_VSYNCP⟩,
   ⟨36000, 800, 824, 896, 1024, 0, 600, 601, 603, 625, 0, VGA_HSYNCP ||| VGA_VSYNCP⟩,
   ⟨50000, 800, 856, 976, 1040, 0, 600, 637, 643, 666, 0, VGA_HSYNCP ||| VGA_VSYNCP⟩,
   ⟨49500, 800, 816, 896, 1056, 0, 600, 601, 604, 625, 0, VGA_HSYNCP ||| VGA_VSYNCP⟩,
   ⟨56250, 800, 832, 896, 1048, 0, 600, 601, 604, 631, 0, VGA_HSYNCP ||| VGA_VSYNCP⟩,
   ⟨65000, 1024, 1048, 1184, 1344, 0, 768, 771, 777, 806, 0, 0⟩,
   ⟨44900, 1024, 1032, 1208, 1264, 0, 768, 768, 776, 817, 0,
     VGA_HSYNCP ||| VGA_VSYNCP ||| VGA_INTERLACE⟩,
   ⟨75000, 1024, 1048, 1184, 1328, 0, 768, 771, 777, 806, 0, 0⟩,
   ⟨78800, 1024, 1040, 1136, 1312, 0, 768, 769, 772, 800, 0, VGA_HSYNCP ||| VGA_VSYNCP⟩,
   ⟨94500, 1024, 1072, 1168, 1376, 0, 768, 769, 772, 808, 0, VGA_VSYNCP ||| VGA_VSYNCP⟩,
   ⟨108000, 1152, 1216, 1344, 1600, 0, 864, 865, 868, 900, 0, VGA_HSYNCP ||| VGA_VSYNCP⟩,
   ⟨108000, 1280, 1328, 1440, 1688, 0, 1024, 1025, 1028, 1066, 0, VGA_HSYNCP ||| VGA_VSYNCP⟩,
   ⟨135000, 1280, 1296, 1440, 1688, 0, 1024, 1025, 1028, 1066, 0, VGA_HSYNCP ||| VGA_VSYNCP⟩]

/-- A `cirrus_mode_t` entry: mode tag, depth, the DPMS register pair
(power entries) and the refresh tag plus configuration index (graphics
entries, the index standing for the C `cfgs + k` pointer).  Union
fields not used by an entry's kind hold zero values. -/
structure CirrusEntry where
  mode : GraphMode
  depth : Nat
  sr01 : Nat
  gr0e : Nat
  freq : GraphFreq
  cfg : Nat
deriving DecidableEq

/-- The graphics-mode table `modes` (cirrus.c lines 123-195), with its
`{ 0 }` sentinel as the final entry. -/
def modesTab : List CirrusEntry :=
  [⟨.on,           0, 0x00, 0x00, .deffreq, 0⟩,  --  0
   ⟨.off,          0, 0x20, 0x06, .deffreq, 0⟩,  --  1
   ⟨.standby,      0, 0x20, 0x02, .deffreq, 0⟩,  --  2
   ⟨.suspend,      0, 0x20, 0x04, .deffreq, 0⟩,  --  3
   ⟨.m640x400x8,   1, 0, 0, .f70, 0⟩,            --  4
   ⟨.m640x480x8,   1, 0, 0, .f60, 1⟩,            --  5
   ⟨.m640x480x8,   1, 0, 0, .f72, 2⟩,            --  6
   ⟨.m640x480x8,   1, 0, 0, .f75, 3⟩,            --  7
   ⟨.m640x480x8,   1, 0, 0, .f85, 4⟩,            --  8
   ⟨.m800x600x8,   1, 0, 0, .f60, 5⟩,            --  9
   ⟨.m800x600x8,   1, 0, 0, .f56, 6⟩,            -- 10
   ⟨.m800x600x8,   1, 0, 0, .f72, 7⟩,            -- 11
   ⟨.m800x600x8,   1, 0, 0, .f75, 8⟩,            -- 12
   ⟨.m800x600x8,   1, 0, 0, .f85, 9⟩,            -- 13
   ⟨.m1024x768x8,  1, 0, 0, .f60, 10⟩,           -- 14
   ⟨.m1024x768x8,  1, 0, 0, .f43i, 11⟩,          -- 15
   ⟨.m1024x768x8,  1, 0, 0, .f70, 12⟩,           -- 16
   ⟨.m1024x768x8,  1, 0, 0, .f75, 13⟩,           -- 17
   ⟨.m1024x768x8,  1, 0, 0, .f85, 14⟩,           -- 18
   ⟨.m1152x864x8,  1, 0, 0, .f75, 15⟩,           -- 19
   ⟨.m1280x1024x8, 1, 0, 0, .f60, 16⟩,           -- 20
   ⟨.m1280x1024x8, 1, 0, 0, .f75, 17⟩,           -- 21
   ⟨.m640x480x16,  2, 0, 0, .f60, 1⟩,            -- 22
   ⟨.m640x480x16,  2, 0, 0, .f72, 2⟩,            -- 23
   ⟨.m640x480x16,  2, 0, 0, .f75, 3⟩,            -- 24
   ⟨.m640x480x16,  2, 0, 0, .f85, 4⟩,            -- 25
   ⟨.m800x600x16,  2, 0, 0, .f60, 5⟩,            -- 26
   ⟨.m800x600x16,  2, 0, 0, .f56, 6⟩,            -- 27
   ⟨.m800x600x16,  2, 0, 0, .f72, 7⟩,            -- 28
   ⟨.m800x600x16,  2, 0, 0, .f75, 8⟩,            -- 29
   ⟨.m800x600x16,  2, 0, 0, .f85, 9⟩,            -- 30
   ⟨.m1024x768x16, 2, 0, 0, .f60, 10⟩,           -- 31
   ⟨.m1024x768x16, 2, 0, 0, .f43i, 11⟩,          -- 32
   ⟨.m1024x768x16, 2, 0, 0, .f70, 12⟩,           -- 33
   ⟨.m1024x768x16, 2, 0, 0, .f75, 13⟩,           -- 34
   ⟨.m1024x768x16, 2, 0, 0, .f85, 14⟩,           -- 35
   ⟨.m640x480x24,  3, 0, 0, .f60, 1⟩,            -- 36
   ⟨.m640x480x24,  3, 0, 0, .f72, 2⟩,            -- 37
   ⟨.m640x480x24,  3, 0, 0, .f75, 3⟩,            -- 38
   ⟨.m640x480x24,  3, 0, 0, .f85, 4⟩,            -- 39
   ⟨.m800x600x24,  3, 0, 0, .f60, 5⟩,            -- 40
   ⟨.m800x600x24,  3, 0, 0, .f56, 6⟩,            -- 41
   ⟨.m800x600x24,  3, 0, 0, .f72, 7⟩,            -- 42
   ⟨.m800x600x24,  3, 0, 0, .f75, 8⟩,            -- 43
   ⟨.m800x600x24,  3, 0, 0, .f85, 9⟩,            -- 44
   ⟨.m1024x768x24, 3, 0, 0, .f60, 10⟩,           -- 45
   ⟨.m1024x768x24, 3, 0, 0, .f43i, 11⟩,          -- 46
   ⟨.m1024x768x24, 3, 0, 0, .f70, 12⟩,           -- 47
   ⟨.m1024x768x24, 3, 0, 0, .f75, 13⟩,           -- 48
   ⟨.m1024x768x24, 3, 0, 0, .f85, 14⟩,           -- 49
   ⟨.m640x480x32,  4, 0, 0, .f60, 1⟩,            -- 50
   ⟨.m640x480x32,  4, 0, 0, .f72, 2⟩,            -- 51
   ⟨.m640x480x32,  4, 0, 0, .f75, 3⟩,            -- 52
   ⟨.m640x480x32,  4, 0, 0, .f85, 4⟩,            -- 53
   ⟨.m800x600x32,  4, 0, 0, .f60, 5⟩,            -- 54
   ⟨.m800x600x32,  4, 0, 0, .f56, 6⟩,            -- 55
   ⟨.m800x600x32,  4, 0, 0, .f72, 7⟩,            -- 56
   ⟨.m800x600x32,  4, 0, 0, .f75, 8⟩,            -- 57
   ⟨.m800x600x32,  4, 0, 0, .f85, 9⟩,            -- 58
   ⟨.m1024x768x32, 4, 0, 0, .f60, 10⟩,           -- 59
   ⟨.m1024x768x32, 4, 0, 0, .f43i, 11⟩,          -- 60
   ⟨.m1024x768x32, 4, 0, 0, .f70, 12⟩,           -- 61
   ⟨.m1024x768x32, 4, 0, 0, .f75, 13⟩,           -- 62
   ⟨.m1024x768x32, 4, 0, 0, .f85, 14⟩,           -- 63
   ⟨.defmode,      0, 0x00, 0x00, .deffreq, 0⟩]  -- 64, the { 0 } sentinel

/-- `DEFMODE` (cirrus.c line 30). -/
def DEFMODE : Nat := 31

/-- `maxvclks` (cirrus.c line 199). -/
def maxvclks : List Nat := [0, 135100, 85500, 85500, 0]

/-- Error returns of the cirrus entry points: -ENOTSUP (UnsupportedMode),
-EFAULT (HardwareFault/ClockOutOfRange propagated), -ENOSPC
(InsufficientFramebuffer). -/
inductive CErr where
  | enotsup
  | efault
  | enospc
deriving DecidableEq

/-- The reported adapter state (graph->width/height/depth). -/
structure Graph where
  width : Nat
  height : Nat
  depth : Nat
deriving DecidableEq

/-- The mode-table scan of cirrus_mode (lines 474-478): first entry
whose mode tag matches, with the refresh tag also required to match
only for depth > 0 entries when a specific refresh was requested;
reaching a `{ 0 }` sentinel (mode tag 0 = the default tag) returns
none (-ENOTSUP). -/
def cirrusFind (mode : GraphMode) (freq : GraphFreq) : List CirrusEntry → Option CirrusEntry
  | [] => none
  | e :: rest =>
    if e.mode ≠ mode ∨ (e.depth ≠ 0 ∧ freq ≠ GraphFreq.deffreq ∧ e.freq ≠ freq) then
      if e.mode = GraphMode.defmode then none else cirrusFind mode freq rest
    else some e

/-- `cirrus_state_t` (cirrus.c lines 62-82). -/
structure CirrusState where
  base : VgaState
  cr1a : Nat
  cr1b : Nat
  cr1d : Nat
  sr07 : Nat
  sr0e : Nat
  sr12 : Nat
  sr13 : Nat
  sr17 : Nat
  sr1e : Nat
  sr21 : Nat
  sr2d : Nat
  gr17 : Nat
  gr18 : Nat
  hdr : Nat

/-- `cirrus_restore` (cirrus.c lines 435-462): extended CRTC, sequencer
and graphics registers, four DAC pixel-mask reads, the hidden DAC
register, then the base VGA restore. -/
def cirrus_restore (d : Vga) (cs : CirrusState) : Vga × List Ev :=
  let d1 := { d with
    crtc := upd (upd (upd d.crtc 0x1a (byte cs.cr1a)) 0x1b (byte cs.cr1b)) 0x1d (byte cs.cr1d),
    seq := upd (upd (upd (upd (upd (upd (upd (upd d.seq
      0x07 (byte cs.sr07)) 0x0e (byte cs.sr0e)) 0x12 (byte cs.sr12)) 0x13 (byte cs.sr13))
      0x17 (byte cs.sr17)) 0x1e (byte cs.sr1e)) 0x21 (byte cs.sr21)) 0x2d (byte cs.sr2d),
    gfx := upd (upd d.gfx 0x17 (byte cs.gr17)) 0x18 (byte cs.gr18) }
  let t1 := [Ev.wcrtc 0x1a (byte cs.cr1a), Ev.wcrtc 0x1b (byte cs.cr1b),
             Ev.wcrtc 0x1d (byte cs.cr1d),
             Ev.wseq 0x07 (byte cs.sr07), Ev.wseq 0x0e (byte cs.sr0e),
             Ev.wseq 0x12 (byte cs.sr12), Ev.wseq 0x13 (byte cs.sr13),
             Ev.wseq 0x17 (byte cs.sr17), Ev.wseq 0x1e (byte cs.sr1e),
             Ev.wseq 0x21 (byte cs.sr21), Ev.wseq 0x2d (byte cs.sr2d),
             Ev.wgfx 0x17 (byte cs.gr17), Ev.wgfx 0x18 (byte cs.gr18),
             Ev.rdac 0 (d1.dacIn d1.dacReads), Ev.rdac 0 (d1.dacIn (d1.dacReads + 1)),
             Ev.rdac 0 (d1.dacIn (d1.dacReads + 2)), Ev.rdac 0 (d1.dacIn (d1.dacReads + 3)),
             Ev.wdac 0 (byte cs.hdr)]
  let d2 := { d1 with dacReads := d1.dacReads + 4 }
  let vr := vga_restore d2 cs.base
  (vr.dev, t1 ++ vr.tr)

/-- The depth-dependent extended register profile of cirrus_mode
(the `switch (modes[i].depth)` at lines 535-558): the sr07 bits and the
hidden DAC register value; none models the -EFAULT default branch. -/
def cirrusProfile (depth hdiv : Nat) : Option (Nat × Nat) :=
  match depth with
  | 1 => some ((if hdiv = 1 then 0x17 else 0x11), (if hdiv = 1 then 0x4a else 0x00))
  | 2 => some ((if hdiv = 1 then 0x19 else 0x17), 0xc1)
  | 3 => some (0x15, 0xc5)
  | 4 => some (0x19, 0xc5)
  | _ => none

/-- `cirrus_mode` (cirrus.c lines 465-577): table lookup (index DEFMODE
when the default mode is requested), the DPMS fast path for power
entries, horizontal/vertical timing adjustment, clock synthesis, pure
register-image composition, then the locked write phase followed by the
reported-state update and the framebuffer clear.  Returns the error or
ok status, the device and reported state after the call, and the event
trace. -/
def cirrus_mode (d : Vga) (g : Graph) (mode : GraphMode) (freq : GraphFreq) :
    Except CErr Unit × Vga × Graph × List Ev :=
  match if mode = GraphMode.defmode then some (modesTab.getD DEFMODE ⟨.defmode, 0, 0, 0, .deffreq, 0⟩)
    else cirrusFind mode freq modesTab with
  | none => (.error .enotsup, d, g, [])
  | some e =>
    if e.depth = 0 then
      -- power management fast path (lines 481-485)
      let v1 := d.seq 1
      let w1 := byte ((v1 &&& 0xdf) ||| e.sr01)
      let d1 := { d with seq := upd d.seq 1 w1 }
      let v2 := d1.gfx 0x0e
      let w2 := byte ((v2 &&& 0xf9) ||| e.gr0e)
      let d2 := { d1 with gfx := upd d1.gfx 0x0e w2 }
      (.ok (), d2, g, [.rseq 1 v1, .wseq 1 w1, .rgfx 0x0e v2, .wgfx 0x0e w2])
    else
      let cfg0 := cfgs.getD e.cfg default
      let pitch := u32 (cfg0.hres * e.depth)
      let hdiv := if 85500 < cfg0.clk then 1 else 0
      let cfg1 := if 85500 < cfg0.clk then
          { cfg0 with
            hres := cfg0.hres >>> 1, hsyncs := cfg0.hsyncs >>> 1,
            hsynce := cfg0.hsynce >>> 1, htotal := cfg0.htotal >>> 1, clk := cfg0.clk >>> 1 }
        else cfg0
      let vdiv := if 1024 ≤ cfg1.vtotal ∧ cfg1.flags &&& VGA_INTERLACE = 0 then 1 else 0
      let cfg2 := if 1024 ≤ cfg1.vtotal ∧ cfg1.flags &&& VGA_INTERLACE = 0 then
          { cfg1 with
            vres := cfg1.vres >>> 1, vsyncs := cfg1.vsyncs >>> 1,
            vsynce := cfg1.vsynce >>> 1, vtotal := cfg1.vtotal >>> 1 }
        else cfg1
      match cirrus_vclk (maxvclks.getD e.depth 0) cfg2.clk with
      | none => (.error .efault, d, g, [])
      | some vclk =>
        match cirrusProfile e.depth hdiv with
        | none => (.error .efault, d, g, [])
        | some prof =>
          let st0 := vga_mode 3 cfg2
          let st1 := { st0 with
            crtc := upd (upd st0.crtc 0x13 (byte (pitch >>> 3)))
              0x17 (byte (st0.crtc 0x17 ||| vdiv * 0x04)) }
          let cs : CirrusState := {
            base := st1,
            cr1a := 0x00,
            cr1b := byte (((pitch >>> 7) &&& 0x10) ||| ((pitch >>> 6) &&& 0x40) ||| 0x22),
            cr1d := 0x00,
            sr07 := byte (0xe0 ||| prof.1),
            sr0e := 0x00, sr12 := 0x04, sr13 := 0x00, sr17 := 0x00,
            sr1e := 0x00, sr21 := 0x00, sr2d := 0x00,
            gr17 := 0x08,
            gr18 := if hdiv = 1 then 0x20 else 0x00,
            hdr := prof.2 }
          let ml := vga_mlock d
          let cr := cirrus_restore ml.1 cs
          let v0e := cr.1.seq 0x0e
          let w0e := byte ((v0e &&& 0x80) ||| vclk.num)
          let d5 := { cr.1 with seq := upd (upd cr.1.seq 0x0e w0e) 0x1e (byte vclk.den) }
          let mu := vga_munlock d5
          let g2 : Graph := { width := cfg0.hres, height := cfg0.vres, depth := e.depth }
          (.ok (), mu.1, g2,
           ml.2 ++ cr.2 ++
             [.rseq 0x0e v0e, .wseq 0x0e w0e, .wseq 0x1e (byte vclk.den)] ++ mu.2 ++
             [.memz (u32 (u32 (g2.width * g2.height) * g2.depth))])

/-- `cirrus_cursorset` (cirrus.c lines 309-341): reject when the
configured frame plus the 4 KiB cursor reservation exceeds the mapped
video memory, otherwise write the 64 x 16-byte sprite rows (XOR bytes
then complemented AND bytes) at the top of the aperture and program the
cursor colors through the extended DAC sequence. -/
def cirrus_cursorset (d : Vga) (vmemsz : Nat) (g : Graph) (andM xorM : Nat → Nat)
    (bg fg : Nat) : Except CErr Unit × Vga × List Ev :=
  if vmemsz < u32 (u32 (u32 (g.height * g.width) * g.depth) + 0x1000) then
    (.error .enospc, d, [])
  else
    let base := vmemsz - 0x1000
    let sprite := (List.range 64).flatMap fun i =>
      (List.range 8).map (fun j => Ev.memw (base + 16 * i + j) (byte (xorM (8 * i + j)))) ++
      (List.range 8).map (fun j => Ev.memw (base + 16 * i + 8 + j) (255 - byte (andM (8 * i + j))))
    let d1 := { d with seq := upd d.seq 0x13 0x30 }
    let sr12 := d1.seq 0x12
    let d2 := { d1 with seq := upd d1.seq 0x12 (byte (sr12 ||| 0x82)) }
    let d3 := { d2 with seq := upd d2.seq 0x12 (byte (sr12 &&& 0xfd)) }
    (.ok (), d3,
     sprite ++
       [Ev.wseq 0x13 0x30, Ev.rseq 0x12 sr12, Ev.wseq 0x12 (byte (sr12 ||| 0x82)),
        Ev.wdac 0x02 0x00, Ev.wdac 0x03 (byte bg), Ev.wdac 0x03 (byte (bg >>> 8)),
        Ev.wdac 0x03 (byte (bg >>> 16)),
        Ev.wdac 0x02 0x0f, Ev.wdac 0x03 (byte fg), Ev.wdac 0x03 (byte (fg >>> 8)),
        Ev.wdac 0x03 (byte (fg >>> 16)),
        Ev.wseq 0x12 (byte (sr12 &&& 0xfd))])

/-- An all-zero register file used as a concrete adapter state. -/
def vga0 : Vga := ⟨0, fun _ => 0, fun _ => 0, fun _ => 0, fun _ => 0, fun _ => 0, 0⟩

/-- C3: mode-change atomicity.  Every failing return of cirrus_mode (no
table match, clock synthesis failure, depth outside 1-4) happens before
the locked register-write phase: on any error the device registers, the
reported width/height/depth and the event trace are untouched (the trace
is empty). -/
theorem cirrus_mode_c3 (d : Vga) (g : Graph) (mode : GraphMode) (freq : GraphFreq)
    (err : CErr) (h : (cirrus_mode d g mode freq).1 = .error err) :
    (cirrus_mode d g mode freq).2.1 = d ∧
    (cirrus_mode d g mode freq).2.2.1 = g ∧
    (cirrus_mode d g mode freq).2.2.2 = [] := by
  unfold cirrus_mode at h ⊢
  split at h
  next heq =>
    exact ⟨rfl, rfl, rfl⟩
  next e heq =>
    by_cases hdep : e.depth = 0
    · rw [if_pos hdep] at h
      dsimp only at h
      exact Except.noConfusion h
    · rw [if_neg hdep] at h ⊢
      dsimp only at h ⊢
      split at h
      next heq2 =>
        exact ⟨rfl, rfl, rfl⟩
      next vclk heq2 =>
        split at h
        next heq3 =>
          exact ⟨rfl, rfl, rfl⟩
        next prof heq3 =>
          dsimp only at h
          exact Except.noConfusion h

/-- Witness for C3: requesting 640x480x8 at the 43 Hz interlaced tag has
no table entry; the call fails with -ENOTSUP leaving everything
untouched. -/
theorem cirrus_mode_c3_witness :
    (cirrus_mode vga0 ⟨0, 0, 0⟩ .m640x480x8 .f43i).2.1 = vga0 ∧
    (cirrus_mode vga0 ⟨0, 0, 0⟩ .m640x480x8 .f43i).2.2.1 = (⟨0, 0, 0⟩ : Graph) ∧
    (cirrus_mode vga0 ⟨0, 0, 0⟩ .m640x480x8 .f43i).2.2.2 = [] :=
  cirrus_mode_c3 vga0 ⟨0, 0, 0⟩ .m640x480x8 .f43i .enotsup rfl

/-- C10: a default-mode request bypasses the catalog lookup and
configures catalog index 31 (DEFMODE), the 1024x768 entry with byte
depth 2 (16-bit color) at the 60 Hz tag: for every device state and
requested refresh the call succeeds and afterwards reports width 1024,
height 768, depth 2. -/
theorem cirrus_mode_c10 (d : Vga) (g : Graph) (freq : GraphFreq) :
    (cirrus_mode d g .defmode freq).1 = .ok () ∧
    (cirrus_mode d g .defmode freq).2.2.1 = ⟨1024, 768, 2⟩ ∧
    modesTab.getD DEFMODE ⟨.defmode, 0, 0, 0, .deffreq, 0⟩ =
      ⟨.m1024x768x16, 2, 0, 0, .f60, 10⟩ ∧
    (cfgs.getD 10 default).hres = 1024 ∧ (cfgs.getD 10 default).vres = 768 :=
  ⟨rfl, rfl, rfl, rfl, rfl⟩

/-- No mode-table entry other than possibly the last carries the
sentinel (default) tag. -/
def noEarlySentinelB : List CirrusEntry → Bool
  | [] => true
  | [_] => true
  | e :: rest => decide (e.mode ≠ GraphMode.defmode) && noEarlySentinelB rest

/-- The mode-table scan is a first-match search: when the requested tag
is not the default tag and sentinels only terminate the table, the C
loop computes `List.find?` of the match predicate. -/
lemma cirrusFind_eq_find? (mode : GraphMode) (freq : GraphFreq)
    (hm : mode ≠ GraphMode.defmode) :
    ∀ L, noEarlySentinelB L = true →
      cirrusFind mode freq L = L.find? fun e =>
        decide (e.mode = mode ∧ (e.depth = 0 ∨ freq = GraphFreq.deffreq ∨ e.freq = freq))
  | [], _ => rfl
  | e :: rest, hs => by
    by_cases hc : e.mode ≠ mode ∨ (e.depth ≠ 0 ∧ freq ≠ GraphFreq.deffreq ∧ e.freq ≠ freq)
    · have hpred : ¬ (e.mode = mode ∧ (e.depth = 0 ∨ freq = GraphFreq.deffreq ∨ e.freq = freq)) := by
        tauto
      rw [cirrusFind, if_pos hc, List.find?_cons_of_neg _ (by simpa using hpred)]
      by_cases hsen : e.mode = GraphMode.defmode
      · rw [if_pos hsen]
        cases rest with
        | nil => rfl
        | cons f rest' =>
          exfalso
          have : decide (e.mode ≠ GraphMode.defmode) = true := by
            have hx := hs
            unfold noEarlySentinelB at hx
            rw [Bool.and_eq_true] at hx
            exact hx.1
          rw [decide_eq_true_eq] at this
          exact this hsen
      · rw [if_neg hsen]
        cases rest with
        | nil => rfl
        | cons f rest' =>
          have hr : noEarlySentinelB (f :: rest') = true := by
            have hx := hs
            unfold noEarlySentinelB at hx
            rw [Bool.and_eq_true] at hx
            exact hx.2
          exact cirrusFind_eq_find? mode freq hm (f :: rest') hr
    · have hpred : e.mode = mode ∧ (e.depth = 0 ∨ freq = GraphFreq.deffreq ∨ e.freq = freq) := by
        tauto
      rw [cirrusFind, if_neg hc, List.find?_cons_of_pos _ (by simpa using hpred)]

/-- C6: for every mode request other than the default tag, the lookup
scans the sentinel-terminated catalog in order and selects the first
entry matching the mode tag (and the refresh tag, required only when the
entry's depth is nonzero and a specific refresh was requested); if the
sentinel is reached, cirrus_mode returns -ENOTSUP (UnsupportedMode) with
the device state, reported width/height/depth and trace untouched. -/
theorem cirrus_mode_c6 (mode : GraphMode) (freq : GraphFreq) (d : Vga) (g : Graph)
    (hm : mode ≠ GraphMode.defmode) :
    (cirrusFind mode freq modesTab = modesTab.find? fun e =>
      decide (e.mode = mode ∧ (e.depth = 0 ∨ freq = GraphFreq.deffreq ∨ e.freq = freq))) ∧
    (cirrusFind mode freq modesTab = none →
      cirrus_mode d g mode freq = (.error .enotsup, d, g, [])) := by
  constructor
  · exact cirrusFind_eq_find? mode freq hm modesTab (by decide)
  · intro hnone
    unfold cirrus_mode
    rw [if_neg hm, hnone]

/-- Witness for C6 at the concrete unsupported request 640x480x8 @ 43 Hz
interlaced. -/
theorem cirrus_mode_c6_witness :
    (cirrusFind .m640x480x8 .f43i modesTab = modesTab.find? fun e =>
      decide (e.mode = .m640x480x8 ∧
        (e.depth = 0 ∨ GraphFreq.f43i = GraphFreq.deffreq ∨ e.freq = .f43i))) ∧
    (cirrusFind .m640x480x8 .f43i modesTab = none →
      cirrus_mode vga0 ⟨0, 0, 0⟩ .m640x480x8 .f43i = (.error .enotsup, vga0, ⟨0, 0, 0⟩, [])) :=
  cirrus_mode_c6 .m640x480x8 .f43i vga0 ⟨0, 0, 0⟩ (by decide)

lemma byte_lt {x : Nat} (h : x < 256) : byte x = x := by
  unfold byte
  have hx := Nat.and_pow_two_sub_one_eq_mod x 8
  simp at hx
  omega

/-- C9: DPMS idempotence.  Applying cirrus_mode with the DPMS-On power
entry twice performs the same event sequence with byte-identical written
values both times (the second read-modify-write reproduces the first
written values), and the power path modifies only the screen-enable bit
(0x20 of sequencer 1) and the sync-enable bits (0x06 of graphics 0x0e),
leaving every other register — in particular all timing registers —
untouched. -/
theorem cirrus_mode_c9 (d : Vga) (g : Graph) (freq : GraphFreq)
    (hseq : d.seq 1 < 256) (hgfx : d.gfx 0x0e < 256) :
    ∃ a b,
      (cirrus_mode d g .on freq).2.2.2 =
        [Ev.rseq 1 (d.seq 1), Ev.wseq 1 a, Ev.rgfx 0x0e (d.gfx 0x0e), Ev.wgfx 0x0e b] ∧
      (cirrus_mode (cirrus_mode d g .on freq).2.1 g .on freq).2.2.2 =
        [Ev.rseq 1 a, Ev.wseq 1 a, Ev.rgfx 0x0e b, Ev.wgfx 0x0e b] ∧
      a = d.seq 1 &&& 0xdf ∧ b = d.gfx 0x0e &&& 0xf9 ∧
      (cirrus_mode d g .on freq).1 = .ok () ∧
      (cirrus_mode d g .on freq).2.2.1 = g ∧
      (∀ i, i ≠ 1 → (cirrus_mode d g .on freq).2.1.seq i = d.seq i) ∧
      (∀ i, i ≠ 0x0e → (cirrus_mode d g .on freq).2.1.gfx i = d.gfx i) ∧
      (cirrus_mode d g .on freq).2.1.crtc = d.crtc ∧
      (cirrus_mode d g .on freq).2.1.misc = d.misc ∧
      (cirrus_mode d g .on freq).2.1.attr = d.attr := by
  have ea : byte ((d.seq 1 &&& 0xdf) ||| 0x00) = d.seq 1 &&& 0xdf := by
    rw [Nat.or_zero]
    exact byte_lt (lt_of_le_of_lt Nat.and_le_left hseq)
  have eb : byte ((d.gfx 0x0e &&& 0xf9) ||| 0x00) = d.gfx 0x0e &&& 0xf9 := by
    rw [Nat.or_zero]
    exact byte_lt (lt_of_le_of_lt Nat.and_le_left hgfx)
  have ea2 : byte (((d.seq 1 &&& 0xdf) &&& 0xdf) ||| 0x00) = d.seq 1 &&& 0xdf := by
    rw [Nat.and_assoc, Nat.and_self]
    exact ea
  have eb2 : byte (((d.gfx 0x0e &&& 0xf9) &&& 0xf9) ||| 0x00) = d.gfx 0x0e &&& 0xf9 := by
    rw [Nat.and_assoc, Nat.and_self]
    exact eb
  refine ⟨d.seq 1 &&& 0xdf, d.gfx 0x0e &&& 0xf9, ?_, ?_, rfl, rfl, rfl, rfl, ?_, ?_, rfl, rfl, rfl⟩
  · show [Ev.rseq 1 (d.seq 1), Ev.wseq 1 (byte ((d.seq 1 &&& 0xdf) ||| 0x00)),
      Ev.rgfx 0x0e (d.gfx 0x0e), Ev.wgfx 0x0e (byte ((d.gfx 0x0e &&& 0xf9) ||| 0x00))] = _
    rw [ea, eb]
  · show [Ev.rseq 1 (byte ((d.seq 1 &&& 0xdf) ||| 0x00)),
      Ev.wseq 1 (byte ((byte ((d.seq 1 &&& 0xdf) ||| 0x00) &&& 0xdf) ||| 0x00)),
      Ev.rgfx 0x0e (byte ((d.gfx 0x0e &&& 0xf9) ||| 0x00)),
      Ev.wgfx 0x0e (byte ((byte ((d.gfx 0x0e &&& 0xf9) ||| 0x00) &&& 0xf9) ||| 0x00))] = _
    rw [ea, eb, ea2, eb2]
  · intro i hi
    show upd d.seq 1 (byte ((d.seq 1 &&& 0xdf) ||| 0x00)) i = d.seq i
    unfold upd
    rw [if_neg hi]
  · intro i hi
    show upd d.gfx 0x0e (byte ((d.gfx 0x0e &&& 0xf9) ||| 0x00)) i = d.gfx i
    unfold upd
    rw [if_neg hi]

/-- Witness for C9 on the all-zero register file. -/
theorem cirrus_mode_c9_witness :
    ∃ a b,
      (cirrus_mode vga0 ⟨0, 0, 0⟩ .on .deffreq).2.2.2 =
        [Ev.rseq 1 (vga0.seq 1), Ev.wseq 1 a, Ev.rgfx 0x0e (vga0.gfx 0x0e), Ev.wgfx 0x0e b] ∧
      (cirrus_mode (cirrus_mode vga0 ⟨0, 0, 0⟩ .on .deffreq).2.1 ⟨0, 0, 0⟩ .on .deffreq).2.2.2 =
        [Ev.rseq 1 a, Ev.wseq 1 a, Ev.rgfx 0x0e b, Ev.wgfx 0x0e b] ∧
      a = vga0.seq 1 &&& 0xdf ∧ b = vga0.gfx 0x0e &&& 0xf9 ∧
      (cirrus_mode vga0 ⟨0, 0, 0⟩ .on .deffreq).1 = .ok () ∧
      (cirrus_mode vga0 ⟨0, 0, 0⟩ .on .deffreq).2.2.1 = (⟨0, 0, 0⟩ : Graph) ∧
      (∀ i, i ≠ 1 → (cirrus_mode vga0 ⟨0, 0, 0⟩ .on .deffreq).2.1.seq i = vga0.seq i) ∧
      (∀ i, i ≠ 0x0e → (cirrus_mode vga0 ⟨0, 0, 0⟩ .on .deffreq).2.1.gfx i = vga0.gfx i) ∧
      (cirrus_mode vga0 ⟨0, 0, 0⟩ .on .deffreq).2.1.crtc = vga0.crtc ∧
      (cirrus_mode vga0 ⟨0, 0, 0⟩ .on .deffreq).2.1.misc = vga0.misc ∧
      (cirrus_mode vga0 ⟨0, 0, 0⟩ .on .deffreq).2.1.attr = vga0.attr :=
  cirrus_mode_c9 vga0 ⟨0, 0, 0⟩ .deffreq (by decide) (by decide)

/-- Event classifiers used to state capture/restore phase ordering. -/
def isDacEv : Ev → Bool
  | .rdac _ _ => true
  | .wdac _ _ => true
  | _ => false

def isCrtcEv : Ev → Bool
  | .rcrtc _ _ => true
  | .wcrtc _ _ => true
  | _ => false

def isMemEv : Ev → Bool
  | .memw _ _ => true
  | .memc _ _ => true
  | .memz _ => true
  | _ => false

lemma all_two {p q : Ev → Bool} {l : List Ev} (h : (l.all fun e => !p e && !q e) = true) :
    ∀ e ∈ l, p e = false ∧ q e = false := by
  rw [List.all_eq_true] at h
  intro e he
  have hx := h e he
  simp only [Bool.and_eq_true, Bool.not_eq_true'] at hx
  exact hx

lemma copytext_all (d : Vga) (st : VgaState) (dir : Nat) :
    ((vga_copytext d st dir).2.all fun e => !isDacEv e && !isCrtcEv e) = true := by
  by_cases h1 : st.font1 <;> by_cases h2 : st.font2 <;> by_cases h3 : st.text <;>
    simp [vga_copytext, vga_blank, vga_unblank, h1, h2, h3, isDacEv, isCrtcEv]

lemma savetext_all (d : Vga) (st : VgaState) :
    ((vga_savetext d st).tr.all fun e => !isDacEv e && !isCrtcEv e) = true := by
  unfold vga_savetext
  by_cases h : d.attr 0x10 &&& 0x01 ≠ 0
  · rw [if_pos h]
    rfl
  · rw [if_neg h]
    dsimp only
    rw [List.all_append, copytext_all]
    rfl

lemma savecmap_all (d : Vga) (st : VgaState) :
    ((vga_savecmap d st).tr.all fun e => !isCrtcEv e && !isMemEv e) = true := by
  unfold vga_savecmap
  cases st.cmap with
  | none => rfl
  | some f => simp [isCrtcEv, isMemEv, List.all_eq_true, List.mem_flatMap]

lemma savemode_all (d : Vga) (st : VgaState) :
    ((vga_savemode d st).tr.all fun e => !isDacEv e && !isMemEv e) = true := by
  simp [vga_savemode, isDacEv, isMemEv, List.all_eq_true]
  all_goals first
    | rfl
    | (intro x i h1 hx; subst hx; exact ⟨rfl, rfl⟩)
    | (intro x i h1 h2 hx; subst hx; exact ⟨rfl, rfl⟩)

lemma restoremode_all (d : Vga) (st : VgaState) :
    ((vga_restoremode d st).tr.all fun e => !isDacEv e && !isMemEv e) = true := by
  simp [vga_restoremode, isDacEv, isMemEv, List.all_eq_true]
  all_goals first
    | rfl
    | (intro x i h1 hx; subst hx; exact ⟨rfl, rfl⟩)
    | (intro x i h1 h2 hx; subst hx; exact ⟨rfl, rfl⟩)

lemma restorecmap_all (d : Vga) (st : VgaState) :
    ((vga_restorecmap d st).tr.all fun e => !isCrtcEv e && !isMemEv e) = true := by
  unfold vga_restorecmap
  cases st.cmap with
  | none => rfl
  | some f => simp [isCrtcEv, isMemEv, List.all_eq_true, List.mem_flatMap]

lemma restoretext_all (d : Vga) (st : VgaState) :
    ((vga_restoretext d st).tr.all fun e => !isDacEv e && !isCrtcEv e) = true := by
  unfold vga_restoretext
  exact copytext_all d st 1

lemma restoremode_unlock (d : Vga) (st : VgaState) :
    (vga_restoremode d st).tr[1]? = some (Ev.wcrtc 0x11 (byte (st.crtc 0x11 &&& 0x7f))) ∧
    ∀ r < 8, (vga_restoremode d st).tr[2 + r]? = some (Ev.wcrtc r (byte (st.crtc r))) := by
  constructor
  · rfl
  · intro r hr
    interval_cases r <;> rfl

/-- C7: save/restore operation order.  The save trace decomposes into the
text/font capture phase (no DAC and no CRTC events), then the palette
phase (only DAC transfers and their delays), then the register-bank
capture (no DAC and no memory events); the restore trace decomposes into
the register-bank phase first, then palette, then text/font memory — so
every memory capture precedes every palette transfer precedes every
register-bank read, and conversely on restore.  Within the register-bank
restore, position 1 of the trace writes CRTC index 0x11 with the
write-protect bit (0x80) cleared, strictly before CRTC registers 0-7 are
written at positions 2-9. -/
theorem vga_saverestore_c7 (d : Vga) (st : VgaState) :
    (∃ t1 t2 t3, (vga_save d st).tr = t1 ++ t2 ++ t3 ∧
      (∀ e ∈ t1, isDacEv e = false ∧ isCrtcEv e = false) ∧
      (∀ e ∈ t2, isCrtcEv e = false ∧ isMemEv e = false) ∧
      (∀ e ∈ t3, isDacEv e = false ∧ isMemEv e = false)) ∧
    (∃ u1 u2 u3, (vga_restore d st).tr = u1 ++ u2 ++ u3 ∧
      (∀ e ∈ u1, isDacEv e = false ∧ isMemEv e = false) ∧
      (∀ e ∈ u2, isCrtcEv e = false ∧ isMemEv e = false) ∧
      (∀ e ∈ u3, isDacEv e = false ∧ isCrtcEv e = false) ∧
      u1[1]? = some (Ev.wcrtc 0x11 (byte (st.crtc 0x11 &&& 0x7f))) ∧
      ∀ r < 8, u1[2 + r]? = some (Ev.wcrtc r (byte (st.crtc r)))) := by
  constructor
  · exact ⟨(vga_savetext d st).tr,
      (vga_savecmap (vga_savetext d st).dev (vga_savetext d st).st).tr,
      (vga_savemode (vga_savecmap (vga_savetext d st).dev (vga_savetext d st).st).dev
        (vga_savecmap (vga_savetext d st).dev (vga_savetext d st).st).st).tr,
      rfl, all_two (savetext_all _ _), all_two (savecmap_all _ _),
      all_two (savemode_all _ _)⟩
  · exact ⟨(vga_restoremode d st).tr,
      (vga_restorecmap (vga_restoremode d st).dev (vga_restoremode d st).st).tr,
      (vga_restoretext
        (vga_restorecmap (vga_restoremode d st).dev (vga_restoremode d st).st).dev
        (vga_restorecmap (vga_restoremode d st).dev (vga_restoremode d st).st).st).tr,
      rfl, all_two (restoremode_all _ _), all_two (restorecmap_all _ _),
      all_two (restoretext_all _ _), (restoremode_unlock d st).1,
      (restoremode_unlock d st).2⟩

/-- C8: cursor reservation.  Under the (always satisfied for configured
modes) assumption that the frame size plus 4 KiB fits a 32-bit unsigned,
the cursor-set call fails with -ENOSPC (InsufficientFramebuffer) exactly
when width x height x depth + 4096 exceeds the mapped framebuffer size;
on failure no framebuffer byte and no register is written (the trace is
empty and the device is unchanged, so in particular the cursor
visibility bit is untouched); on success the 64 x 16-byte AND/XOR sprite
rows are written entirely inside the last 4096 bytes of the aperture,
followed only by the sprite-address and color programming writes. -/
theorem cirrus_cursorset_c8 (d : Vga) (vmemsz : Nat) (g : Graph) (andM xorM : Nat → Nat)
    (bg fg : Nat) (hsz : g.height * g.width * g.depth + 0x1000 < 4294967296) :
    ((cirrus_cursorset d vmemsz g andM xorM bg fg).1 = .error .enospc ↔
      vmemsz < g.width * g.height * g.depth + 4096) ∧
    (vmemsz < g.width * g.height * g.depth + 4096 →
      (cirrus_cursorset d vmemsz g andM xorM bg fg).2.1 = d ∧
      (cirrus_cursorset d vmemsz g andM xorM bg fg).2.2 = []) ∧
    (¬ vmemsz < g.width * g.height * g.depth + 4096 →
      (cirrus_cursorset d vmemsz g andM xorM bg fg).1 = .ok () ∧
      (cirrus_cursorset d vmemsz g andM xorM bg fg).2.2 =
        ((List.range 64).flatMap fun i =>
          (List.range 8).map (fun j =>
            Ev.memw (vmemsz - 0x1000 + 16 * i + j) (byte (xorM (8 * i + j)))) ++
          (List.range 8).map (fun j =>
            Ev.memw (vmemsz - 0x1000 + 16 * i + 8 + j) (255 - byte (andM (8 * i + j))))) ++
        [Ev.wseq 0x13 0x30, Ev.rseq 0x12 (d.seq 0x12),
         Ev.wseq 0x12 (byte (d.seq 0x12 ||| 0x82)),
         Ev.wdac 0x02 0x00, Ev.wdac 0x03 (byte bg), Ev.wdac 0x03 (byte (bg >>> 8)),
         Ev.wdac 0x03 (byte (bg >>> 16)),
         Ev.wdac 0x02 0x0f, Ev.wdac 0x03 (byte fg), Ev.wdac 0x03 (byte (fg >>> 8)),
         Ev.wdac 0x03 (byte (fg >>> 16)),
         Ev.wseq 0x12 (byte (d.seq 0x12 &&& 0xfd))] ∧
      ∀ off v, Ev.memw off v ∈ (cirrus_cursorset d vmemsz g andM xorM bg fg).2.2 →
        vmemsz - 4096 ≤ off ∧ off < vmemsz) := by
  have hcomm : g.height * g.width * g.depth = g.width * g.height * g.depth := by ring
  have hguard : u32 (u32 (u32 (g.height * g.width) * g.depth) + 0x1000) =
      g.width * g.height * g.depth + 0x1000 := by
    unfold u32
    rcases Nat.eq_zero_or_pos g.depth with h0 | h0
    · rw [h0]
      simp
    · have h1 : g.height * g.width < 4294967296 := by
        have := Nat.le_mul_of_pos_right (g.height * g.width) h0
        omega
      have h2 : g.height * g.width * g.depth < 4294967296 := by omega
      rw [Nat.mod_eq_of_lt h1, Nat.mod_eq_of_lt h2, Nat.mod_eq_of_lt (by omega), hcomm]
  have hup : (upd d.seq 0x13 0x30) 0x12 = d.seq 0x12 := by
    unfold upd
    rw [if_neg (by omega)]
  by_cases hc : vmemsz < g.width * g.height * g.depth + 4096
  · have hred : cirrus_cursorset d vmemsz g andM xorM bg fg = (.error .enospc, d, []) := by
      unfold cirrus_cursorset
      rw [hguard, if_pos hc]
    rw [hred]
    refine ⟨⟨fun _ => hc, fun _ => rfl⟩, fun _ => ⟨rfl, rfl⟩, fun hnc => absurd hc hnc⟩
  · have hred1 : (cirrus_cursorset d vmemsz g andM xorM bg fg).1 = .ok () := by
      unfold cirrus_cursorset
      rw [hguard, if_neg hc]
    have hred2 : (cirrus_cursorset d vmemsz g andM xorM bg fg).2.2 =
        ((List.range 64).flatMap fun i =>
          (List.range 8).map (fun j =>
            Ev.memw (vmemsz - 0x1000 + 16 * i + j) (byte (xorM (8 * i + j)))) ++
          (List.range 8).map (fun j =>
            Ev.memw (vmemsz - 0x1000 + 16 * i + 8 + j) (255 - byte (andM (8 * i + j))))) ++
        [Ev.wseq 0x13 0x30, Ev.rseq 0x12 (d.seq 0x12),
         Ev.wseq 0x12 (byte (d.seq 0x12 ||| 0x82)),
         Ev.wdac 0x02 0x00, Ev.wdac 0x03 (byte bg), Ev.wdac 0x03 (byte (bg >>> 8)),
         Ev.wdac 0x03 (byte (bg >>> 16)),
         Ev.wdac 0x02 0x0f, Ev.wdac 0x03 (byte fg), Ev.wdac 0x03 (byte (fg >>> 8)),
         Ev.wdac 0x03 (byte (fg >>> 16)),
         Ev.wseq 0x12 (byte (d.seq 0x12 &&& 0xfd))] := by
      unfold cirrus_cursorset
      rw [hguard, if_neg hc]
      dsimp only
      rw [hup]
    refine ⟨⟨fun h => ?_, fun h => absurd h hc⟩, fun h => absurd h hc,
      fun _ => ⟨hred1, hred2, ?_⟩⟩
    · rw [hred1] at h
      exact Except.noConfusion h
    · intro off v hm
      rw [hred2] at hm
      have hv : 4096 ≤ vmemsz := by omega
      simp only [List.mem_append, List.mem_flatMap, List.mem_map, List.mem_cons,
        List.not_mem_nil, or_false] at hm
      rcases hm with ⟨i, hi, hm⟩ | hm
      · rw [List.mem_range] at hi
        rcases hm with ⟨j, hj, hj2⟩ | ⟨j, hj, hj2⟩ <;> rw [List.mem_range] at hj <;>
          injection hj2 with e1 e2 <;> omega
      · rcases hm with h | h | h | h | h | h | h | h | h | h | h | h <;> exact Ev.noConfusion h

/-- Witness for C8 on a 4 KiB aperture and a configured 640x480x1 mode:
the frame would overlap the cursor reservation, so the call fails and
writes nothing. -/
theorem cirrus_cursorset_c8_witness :
    ((cirrus_cursorset vga0 0x1000 ⟨640, 480, 1⟩ (fun _ => 0) (fun _ => 0) 0 0).1 =
      .error .enospc ↔ 0x1000 < 640 * 480 * 1 + 4096) ∧
    ((0x1000 : Nat) < 640 * 480 * 1 + 4096 →
      (cirrus_cursorset vga0 0x1000 ⟨640, 480, 1⟩ (fun _ => 0) (fun _ => 0) 0 0).2.1 = vga0 ∧
      (cirrus_cursorset vga0 0x1000 ⟨640, 480, 1⟩ (fun _ => 0) (fun _ => 0) 0 0).2.2 = []) := by
  have h := cirrus_cursorset_c8 vga0 0x1000 ⟨640, 480, 1⟩ (fun _ => 0) (fun _ => 0) 0 0
    (by decide)
  exact ⟨h.1, h.2.1⟩
